import Mathlib

/-!
Verification development for the marble-race simulator.

Python floating-point numbers are modelled as exact real numbers, Python
lists of lists of floats (terrain height fields) as functions with explicit
grid dimensions, and the seeded global RNG as an explicit sequence of raw
draws threaded through each consumer.  Calls into external native libraries
(numpy, scipy, pymunk) are modelled as unspecified inputs, universally
quantified in the theorems that touch them.  Fallible Python calls are
modelled with Except.
-/

/-- Python int() conversion: truncation toward zero. -/
noncomputable def pyInt (x : ℝ) : ℤ := if 0 ≤ x then ⌊x⌋ else -⌊-x⌋

/-- math.atan2, the two-argument arctangent. -/
noncomputable def pyAtan2 (y x : ℝ) : ℝ :=
  if 0 < x then Real.arctan (y / x)
  else if x < 0 ∧ 0 ≤ y then Real.arctan (y / x) + Real.pi
  else if x < 0 ∧ y < 0 then Real.arctan (y / x) - Real.pi
  else if x = 0 ∧ 0 < y then Real.pi / 2
  else if x = 0 ∧ y < 0 then -(Real.pi / 2)
  else 0

/-- random.uniform(a, b) = a + (b - a) * random(), as a function of one raw
    stream draw u (rng.py wraps the random module; the seeded stream is passed
    explicitly). -/
noncomputable def rngUniform (a b u : ℝ) : ℝ := a + (b - a) * u

/-- random.randint(a, b), modelled as a function of one raw stream draw
    (any value in [a, b] can arise for a suitable draw). -/
noncomputable def pyRandint (a b : ℤ) (u : ℝ) : ℤ := a + pyInt (u * ((b : ℝ) - (a : ℝ) + 1))

/-- A marble: position, radius, fixed scalar speed, velocity
    (physics/marble.py, class Marble; the color field is omitted as
    physics-irrelevant). -/
structure Marble where
  x : ℝ
  y : ℝ
  radius : ℝ
  speed : ℝ
  velocityX : ℝ
  velocityY : ℝ

/-- config.py SimulationConfig.COLLISION_POSITION_TOLERANCE. -/
noncomputable def COLLISION_POSITION_TOLERANCE : ℝ := 1/10

/-- config.py SimulationConfig.COLLISION_VELOCITY_DAMPING. -/
noncomputable def COLLISION_VELOCITY_DAMPING : ℝ := 999/1000

/-- config.py SimulationConfig.COLLISION_SEPARATION_FACTOR. -/
noncomputable def COLLISION_SEPARATION_FACTOR : ℝ := 1

/-- config.py SimulationConfig.COLLISION_BOUNDARY_PRECISION. -/
def COLLISION_BOUNDARY_PRECISION : Bool := true

/-- config.py SimulationConfig.MARBLE_RADIUS. -/
noncomputable def MARBLE_RADIUS : ℝ := 15

/-- CollisionDetector._normalize_velocity (physics/collision.py, lines
    244-261): rescale the marble velocity to its fixed scalar speed; if the
    current magnitude is below the position tolerance, give it a
    deterministic direction derived from its position. -/
noncomputable def normalizeVelocity (m : Marble) : Marble :=
  let currentSpeed := Real.sqrt (m.velocityX ^ 2 + m.velocityY ^ 2)
  if currentSpeed < COLLISION_POSITION_TOLERANCE then
    let angle := pyAtan2 m.y m.x + 1
    { m with velocityX := Real.cos angle * m.speed
             velocityY := Real.sin angle * m.speed }
  else
    let scale := m.speed / currentSpeed
    { m with velocityX := m.velocityX * scale
             velocityY := m.velocityY * scale }

/-- The per-body constant-speed restoration at the end of
    PhysicsEngine.update_physics (physics/engine.py, lines 137-154): given
    the body velocity (vx, vy) left by the pymunk space.step (an external
    library call, hence an arbitrary input here) and the marble position
    (px, py), rescale the velocity to the stored original marble speed, or
    give it a deterministic direction when the magnitude is at most 0.001. -/
noncomputable def restoreConstantSpeed (px py targetSpeed vx vy : ℝ) : ℝ × ℝ :=
  let speed := Real.sqrt (vx * vx + vy * vy)
  if speed > 1/1000 then
    let scale := targetSpeed / speed
    (vx * scale, vy * scale)
  else
    let angle := pyAtan2 py px + 1
    (Real.cos angle * targetSpeed, Real.sin angle * targetSpeed)

/-- CollisionDetector._resolve_marble_collision (physics/collision.py, lines
    55-127): separation along the center axis, elastic normal-component
    exchange for equal masses, renormalization, and slight damping followed
    by renormalization. -/
noncomputable def resolveMarbleCollision (m1 m2 : Marble) : Marble × Marble × Bool :=
  let dx0 := m2.x - m1.x
  let dy0 := m2.y - m1.y
  let distance0 := Real.sqrt (dx0 ^ 2 + dy0 ^ 2)
  let minDistance := m1.radius + m2.radius
  if distance0 ≥ minDistance - COLLISION_POSITION_TOLERANCE then (m1, m2, false)
  else
    let dd : ℝ × ℝ × ℝ :=
      if distance0 < COLLISION_POSITION_TOLERANCE then
        let angle := pyAtan2 (m2.y - m1.y + 1/100) (m2.x - m1.x + 1/100)
        (Real.cos angle, Real.sin angle, COLLISION_POSITION_TOLERANCE)
      else (dx0 / distance0, dy0 / distance0, distance0)
    let dx := dd.1
    let dy := dd.2.1
    let distance := dd.2.2
    let overlap := minDistance - distance
    let separationDistance := overlap * COLLISION_SEPARATION_FACTOR / 2
    let m1a := { m1 with x := m1.x - dx * separationDistance
                         y := m1.y - dy * separationDistance }
    let m2a := { m2 with x := m2.x + dx * separationDistance
                         y := m2.y + dy * separationDistance }
    let relVelX := m2a.velocityX - m1a.velocityX
    let relVelY := m2a.velocityY - m1a.velocityY
    let relativeSpeed := relVelX * dx + relVelY * dy
    if relativeSpeed ≥ 0 then (m1a, m2a, true)
    else
      let impulse := relativeSpeed
      let m1b := { m1a with velocityX := m1a.velocityX + impulse * dx
                            velocityY := m1a.velocityY + impulse * dy }
      let m2b := { m2a with velocityX := m2a.velocityX - impulse * dx
                            velocityY := m2a.velocityY - impulse * dy }
      let m1c := normalizeVelocity m1b
      let m2c := normalizeVelocity m2b
      if COLLISION_VELOCITY_DAMPING < 1 then
        let m1d := { m1c with velocityX := m1c.velocityX * COLLISION_VELOCITY_DAMPING
                              velocityY := m1c.velocityY * COLLISION_VELOCITY_DAMPING }
        let m2d := { m2c with velocityX := m2c.velocityX * COLLISION_VELOCITY_DAMPING
                              velocityY := m2c.velocityY * COLLISION_VELOCITY_DAMPING }
        (normalizeVelocity m1d, normalizeVelocity m2d, true)
      else (m1c, m2c, true)

/-- CollisionDetector._resolve_boundary_collisions (physics/collision.py,
    lines 148-197): clamp-and-reflect at the four arena edges, then
    renormalize the velocity if any reflection occurred. -/
noncomputable def resolveBoundaryCollisions (m : Marble) (arenaWidth arenaHeight : ℝ) :
    Marble :=
  let step1 : Marble × Bool :=
    if m.x - m.radius < 0 then
      let m1 := { m with x := if COLLISION_BOUNDARY_PRECISION then m.radius
                              else m.radius + COLLISION_POSITION_TOLERANCE }
      if m1.velocityX < 0 then ({ m1 with velocityX := -m1.velocityX }, true)
      else (m1, false)
    else if m.x + m.radius > arenaWidth then
      let m1 := { m with x := if COLLISION_BOUNDARY_PRECISION then arenaWidth - m.radius
                              else arenaWidth - m.radius - COLLISION_POSITION_TOLERANCE }
      if m1.velocityX > 0 then ({ m1 with velocityX := -m1.velocityX }, true)
      else (m1, false)
    else (m, false)
  let m2 := step1.1
  let occ1 := step1.2
  let step2 : Marble × Bool :=
    if m2.y - m2.radius < 0 then
      let m3 := { m2 with y := if COLLISION_BOUNDARY_PRECISION then m2.radius
                               else m2.radius + COLLISION_POSITION_TOLERANCE }
      if m3.velocityY < 0 then ({ m3 with velocityY := -m3.velocityY }, true)
      else (m3, occ1)
    else if m2.y + m2.radius > arenaHeight then
      let m3 := { m2 with y := if COLLISION_BOUNDARY_PRECISION then arenaHeight - m2.radius
                               else arenaHeight - m2.radius - COLLISION_POSITION_TOLERANCE }
      if m3.velocityY > 0 then ({ m3 with velocityY := -m3.velocityY }, true)
      else (m3, occ1)
    else (m2, occ1)
  if step2.2 then normalizeVelocity step2.1 else step2.1

/-- Terrain obstacle wrapping a finished height field
    (terrain/obstacle.py, class FlowingTerrainObstacle).  The Python list of
    lists is modelled as a total function together with the grid dimensions
    taken from the list lengths; base_color is omitted as render-only. -/
structure FlowingTerrainObstacle where
  heightField : ℕ → ℕ → ℝ
  threshold : ℝ
  scaleX : ℝ
  scaleY : ℝ
  gridWidth : ℕ
  gridHeight : ℕ

/-- The sample points of FlowingTerrainObstacle.check_collision (lines
    52-66): samples_per_radius = 2, eight angular directions, two radii per
    direction. -/
noncomputable def collisionSamplePoints (mx my r : ℝ) : List (ℝ × ℝ) :=
  (List.range 8).flatMap (fun i =>
    (List.range 2).map (fun rr =>
      let angle := 2 * Real.pi * i / 8
      let sampleRadius := ((rr : ℝ) + 1) * (r / 2)
      (mx + sampleRadius * Real.cos angle, my + sampleRadius * Real.sin angle)))

/-- The per-sample check inside the sampling loop of check_collision (lines
    67-79): out-of-grid samples count as hits, otherwise compare the sampled
    cell against the threshold. -/
noncomputable def sampleHitsTerrain (T : FlowingTerrainObstacle) (p : ℝ × ℝ) : Bool :=
  let sgx := pyInt (p.1 / T.scaleX)
  let sgy := pyInt (p.2 / T.scaleY)
  if sgx < 0 ∨ (T.gridWidth : ℤ) ≤ sgx ∨ sgy < 0 ∨ (T.gridHeight : ℤ) ≤ sgy then true
  else if T.heightField sgy.toNat sgx.toNat > T.threshold then true
  else false

/-- FlowingTerrainObstacle.check_collision (terrain/obstacle.py, lines
    29-81): world-bounds check, center-cell check, then circular sampling. -/
noncomputable def checkCollision (T : FlowingTerrainObstacle) (mx my r : ℝ) : Bool :=
  let worldWidth := (T.gridWidth : ℝ) * T.scaleX
  let worldHeight := (T.gridHeight : ℝ) * T.scaleY
  if mx - r < 0 ∨ mx + r > worldWidth ∨ my - r < 0 ∨ my + r > worldHeight then true
  else
    let gx := pyInt (mx / T.scaleX)
    let gy := pyInt (my / T.scaleY)
    if gx < 0 ∨ (T.gridWidth : ℤ) ≤ gx ∨ gy < 0 ∨ (T.gridHeight : ℤ) ≤ gy then true
    else if T.heightField gy.toNat gx.toNat > T.threshold then true
    else (collisionSamplePoints mx my r).any (fun p => sampleHitsTerrain T p)

/-- FlowingTerrainObstacle._find_escape_direction_simple (terrain/obstacle.py,
    lines 150-167): probe the four cardinal neighbor cells for open space,
    in the order up, right, down, left; default to pushing right. -/
noncomputable def findEscapeDirectionSimple (T : FlowingTerrainObstacle) (mx my : ℝ) :
    ℝ × ℝ :=
  let gx := pyInt (mx / T.scaleX)
  let gy := pyInt (my / T.scaleY)
  let dirOpen : ℤ → ℤ → Prop := fun dx dy =>
    0 ≤ gx + dx ∧ gx + dx < (T.gridWidth : ℤ) ∧ 0 ≤ gy + dy ∧ gy + dy < (T.gridHeight : ℤ) ∧
      T.heightField (gy + dy).toNat (gx + dx).toNat ≤ T.threshold
  if dirOpen 0 (-1) then (0, -1)
  else if dirOpen 1 0 then (1, 0)
  else if dirOpen 0 1 then (0, 1)
  else if dirOpen (-1) 0 then (-1, 0)
  else (1, 0)

/-- FlowingTerrainObstacle.get_collision_normal (terrain/obstacle.py, lines
    108-148): axis normals in a 10-pixel band at the world boundary,
    otherwise the normalized negative central-difference gradient, with the
    cardinal escape direction as the degenerate fallback. -/
noncomputable def getCollisionNormal (T : FlowingTerrainObstacle) (mx my : ℝ) : ℝ × ℝ :=
  let worldWidth := (T.gridWidth : ℝ) * T.scaleX
  let worldHeight := (T.gridHeight : ℝ) * T.scaleY
  if mx < 10 then (1, 0)
  else if mx > worldWidth - 10 then (-1, 0)
  else if my < 10 then (0, 1)
  else if my > worldHeight - 10 then (0, -1)
  else
    let gx := max 1 (min ((T.gridWidth : ℤ) - 2) (pyInt (mx / T.scaleX)))
    let gy := max 1 (min ((T.gridHeight : ℤ) - 2) (pyInt (my / T.scaleY)))
    let gradX := (T.heightField gy.toNat (gx + 1).toNat
                  - T.heightField gy.toNat (gx - 1).toNat) * (1/2)
    let gradY := (T.heightField (gy + 1).toNat gx.toNat
                  - T.heightField (gy - 1).toNat gx.toNat) * (1/2)
    let nx := -gradX
    let ny := -gradY
    let length := Real.sqrt (nx * nx + ny * ny)
    if length > 1/1000 then (nx / length, ny / length)
    else findEscapeDirectionSimple T mx my

/-- Zone kinds (game_modes/base.py uses the strings spawn and goal). -/
inductive ZoneType
  | spawn
  | goal

/-- A circular zone (game_modes/base.py, class Zone). -/
structure Zone where
  centerX : ℝ
  centerY : ℝ
  radius : ℝ
  zoneType : ZoneType

/-- Zone.contains_point (game_modes/base.py, lines 32-35). -/
noncomputable def zoneContainsPoint (z : Zone) (x y : ℝ) : Bool :=
  if Real.sqrt ((x - z.centerX) ^ 2 + (y - z.centerY) ^ 2) ≤ z.radius then true else false

/-- SimpleTerrainZoneValidator._is_position_clear
    (game_modes/simple_terrain_validator.py, lines 74-94): arena-bounds check
    plus collision checks at the center and four offset test points. -/
noncomputable def isPositionClear (T : FlowingTerrainObstacle)
    (arenaWidth arenaHeight x y zoneRadius marbleRadius : ℝ) : Bool :=
  if x - zoneRadius < 0 ∨ x + zoneRadius ≥ arenaWidth ∨
     y - zoneRadius < 0 ∨ y + zoneRadius ≥ arenaHeight then false
  else
    let testPoints : List (ℝ × ℝ) :=
      [(x, y), (x - zoneRadius * (7/10), y), (x + zoneRadius * (7/10), y),
       (x, y - zoneRadius * (7/10)), (x, y + zoneRadius * (7/10))]
    !(testPoints.any (fun p => checkCollision T p.1 p.2 marbleRadius))

/-- The spawn-search loop of SimpleTerrainZoneValidator._find_any_valid_zones
    (lines 47-57): up to max_attempts attempts, each drawing two uniforms;
    the draw-stream position k is threaded explicitly. -/
noncomputable def findSpawnZone (T : FlowingTerrainObstacle)
    (aw ah spawnRadius marbleRadius buffer : ℝ) (u : ℕ → ℝ) :
    ℕ → ℕ → Option (Zone × ℕ)
  | 0, _ => none
  | fuel + 1, k =>
    let sx := rngUniform buffer (aw - buffer) (u k)
    let sy := rngUniform buffer (ah - buffer) (u (k + 1))
    if isPositionClear T aw ah sx sy spawnRadius marbleRadius then
      some (⟨sx, sy, spawnRadius, ZoneType.spawn⟩, k + 2)
    else findSpawnZone T aw ah spawnRadius marbleRadius buffer u fuel (k + 2)

/-- The goal-search loop of SimpleTerrainZoneValidator._find_any_valid_zones
    (lines 60-72): up to max_attempts attempts, each drawing two uniforms and
    requiring separation of at least 20 percent of the smaller arena
    dimension plus a clear position. -/
noncomputable def findGoalZone (T : FlowingTerrainObstacle)
    (aw ah : ℝ) (spawnZone : Zone) (goalRadius marbleRadius buffer : ℝ) (u : ℕ → ℝ) :
    ℕ → ℕ → Option Zone
  | 0, _ => none
  | fuel + 1, k =>
    let gx := rngUniform buffer (aw - buffer) (u k)
    let gy := rngUniform buffer (ah - buffer) (u (k + 1))
    let distance := Real.sqrt ((gx - spawnZone.centerX) ^ 2 + (gy - spawnZone.centerY) ^ 2)
    let minDistance := min aw ah * (2/10)
    if distance ≥ minDistance ∧
        isPositionClear T aw ah gx gy goalRadius marbleRadius = true then
      some ⟨gx, gy, goalRadius, ZoneType.goal⟩
    else findGoalZone T aw ah spawnZone goalRadius marbleRadius buffer u fuel (k + 2)

/-- SimpleTerrainZoneValidator._find_any_valid_zones
    (game_modes/simple_terrain_validator.py, lines 41-72). -/
noncomputable def findAnyValidZones (T : FlowingTerrainObstacle)
    (aw ah spawnRadius goalRadius marbleRadius : ℝ) (u : ℕ → ℝ) :
    Option (Zone × Zone) :=
  let buffer := max spawnRadius goalRadius + 20
  match findSpawnZone T aw ah spawnRadius marbleRadius buffer u 500 0 with
  | none => none
  | some (spawnZone, k) =>
    match findGoalZone T aw ah spawnZone goalRadius marbleRadius buffer u 500 k with
    | none => none
    | some goalZone => some (spawnZone, goalZone)

/-- SimpleTerrainZoneValidator.validate_indiv_race_terrain (lines 21-38):
    spawn zone radius 4x marble radius, goal zone radius 3x marble radius,
    marble radius from config. -/
noncomputable def validateIndivRaceTerrain (T : FlowingTerrainObstacle)
    (aw ah : ℝ) (u : ℕ → ℝ) : Option (Zone × Zone) :=
  findAnyValidZones T aw ah (MARBLE_RADIUS * 4) (MARBLE_RADIUS * 3) MARBLE_RADIUS u

/-- Modelled from the spec: one 8-directional move of the breadth-first wave
    propagation over a fine grid of the given step size, with
    terrain-collision at the marble radius as the blocking predicate.  This
    reachability check appears in spec section 4.4 but has no counterpart in
    game_modes/simple_terrain_validator.py, the validator used by
    IndivRaceGameMode. -/
noncomputable def specWaveStep (T : FlowingTerrainObstacle) (mr step : ℝ)
    (p q : ℝ × ℝ) : Prop :=
  (∃ dx dy : ℤ, dx.natAbs ≤ 1 ∧ dy.natAbs ≤ 1 ∧ ¬(dx = 0 ∧ dy = 0) ∧
      q = (p.1 + step * dx, p.2 + step * dy)) ∧
  checkCollision T q.1 q.2 mr = false

/-- Modelled from the spec: the spawn center and the goal center are
    connected through open space by wave propagation over a fine grid with
    some step size smaller than the marble radius; the search succeeds when
    the wave comes within a marble radius of the goal center. -/
noncomputable def specReachable (T : FlowingTerrainObstacle) (mr : ℝ)
    (start goal : ℝ × ℝ) : Prop :=
  ∃ step : ℝ, 0 < step ∧ step < mr ∧
    ∃ p : ℝ × ℝ, Relation.ReflTransGen (specWaveStep T mr step) start p ∧
      Real.sqrt ((p.1 - goal.1) ^ 2 + (p.2 - goal.2) ^ 2) ≤ mr

/-- game_modes/base.py GameResult. -/
inductive GameResult
  | ongoing
  | winner
  | draw
  | error

/-- Python exceptions relevant to the embedded calls. -/
inductive PyErr
  | typeError

/-- Marble.update as defined in physics/marble.py (lines 30-61): it takes
    three arguments (dt, arena_width, arena_height), advances the position
    and does clamp-and-reflect boundary handling with tolerance 0.1. -/
noncomputable def marbleUpdate (m : Marble) (dt arenaWidth arenaHeight : ℝ) : Marble :=
  let m0 := { m with x := m.x + m.velocityX * dt, y := m.y + m.velocityY * dt }
  let tolerance : ℝ := 1/10
  let m1 : Marble :=
    if m0.x - m0.radius < tolerance then
      let ma := { m0 with x := m0.radius + tolerance }
      if ma.velocityX < 0 then { ma with velocityX := -ma.velocityX } else ma
    else if m0.x + m0.radius > arenaWidth - tolerance then
      let ma := { m0 with x := arenaWidth - m0.radius - tolerance }
      if ma.velocityX > 0 then { ma with velocityX := -ma.velocityX } else ma
    else m0
  if m1.y - m1.radius < tolerance then
    let mb : Marble := { m1 with y := m1.radius + tolerance }
    if mb.velocityY < (0 : ℝ) then { mb with velocityY := -mb.velocityY } else mb
  else if m1.y + m1.radius > arenaHeight - tolerance then
    let mb : Marble := { m1 with y := arenaHeight - m1.radius - tolerance }
    if mb.velocityY > (0 : ℝ) then { mb with velocityY := -mb.velocityY } else mb
  else m1

/-- Python positional-call semantics for Marble.update: the method requires
    exactly the three positional arguments (dt, arena_width, arena_height);
    a call supplying any other number of arguments raises TypeError. -/
noncomputable def callMarbleUpdate (m : Marble) (args : List ℝ) : Except PyErr Marble :=
  match args with
  | [dt, aw, ah] => Except.ok (marbleUpdate m dt aw ah)
  | _ => Except.error PyErr.typeError

/-- The mutable state of SimulationManager that update touches
    (simulation/manager.py): simulation_time, game_finished,
    winner_marble_id, the marble list, and the goal zone held by the game
    mode handler. -/
structure ManagerState where
  simulationTime : ℝ
  gameFinished : Bool
  winnerMarbleId : Option ℕ
  marbles : List Marble
  goalZone : Option Zone

/-- The state fields as initialized by SimulationManager.__init__ (lines
    31-33): the timer starts at -3.0, the game is not finished, and there is
    no winner. -/
def managerInitState (marbles : List Marble) (goalZone : Option Zone) : ManagerState :=
  ⟨-3, false, none, marbles, goalZone⟩

/-- IndivRaceGameMode.check_win_condition (game_modes/indiv_race.py, lines
    70-85): error when no goal zone is set; otherwise the first marble, in
    index order, whose center lies in the goal zone wins. -/
noncomputable def checkWinCondition (goalZone : Option Zone) (marbles : List Marble) :
    GameResult × Option ℕ :=
  match goalZone with
  | none => (GameResult.error, none)
  | some g =>
    match marbles.findIdx? (fun m => zoneContainsPoint g m.x m.y) with
    | some i => (GameResult.winner, some i)
    | none => (GameResult.ongoing, none)

/-- SimulationManager.update (simulation/manager.py, lines 100-123) with
    Python call and exception semantics: a no-op once finished; otherwise
    advance the timer, call marble.update(dt) on every marble — a call that
    omits the required arena arguments — then run the unified physics update
    (pymunk-backed, modelled as the arbitrary function physicsStep) and the
    win check. -/
noncomputable def managerUpdateRun (physicsStep : List Marble → List Marble)
    (s : ManagerState) (dt : ℝ) : Except PyErr ManagerState :=
  if s.gameFinished then Except.ok s
  else
    let s1 := { s with simulationTime := s.simulationTime + dt }
    match s1.marbles.mapM (fun m => callMarbleUpdate m [dt]) with
    | Except.error e => Except.error e
    | Except.ok ms =>
      let s2 := { s1 with marbles := physicsStep ms }
      match checkWinCondition s2.goalZone s2.marbles with
      | (GameResult.winner, wid) =>
        Except.ok { s2 with gameFinished := true, winnerMarbleId := wid }
      | _ => Except.ok s2

/-- A terrain height field under construction (height_field.py holds it as a
    list of lists; modelled as a total function, indexed row-first as
    field y x like the source). -/
abbrev HField := ℕ → ℕ → ℝ

/-- The interior-cell condition shared by the smoothing, erosion and
    dilation loops of height_field.py: the double loops run over
    range(1, grid_height - 1) x range(1, grid_width - 1) and copy back only
    those cells. -/
def interiorCell (gw gh cy cx : ℕ) : Prop :=
  1 ≤ cy ∧ cy ≤ gh - 2 ∧ 1 ≤ cx ∧ cx ≤ gw - 2

instance (gw gh cy cx : ℕ) : Decidable (interiorCell gw gh cy cx) := by
  unfold interiorCell; infer_instance

/-- The nine offsets of a 3x3 neighborhood, as (row, column) shifts applied
    to (cy - 1, cx - 1). -/
def neighborOffsets : List (ℕ × ℕ) :=
  [(0, 0), (0, 1), (0, 2), (1, 0), (1, 1), (1, 2), (2, 0), (2, 1), (2, 2)]

/-- One iteration of AdvancedFlowField.apply_erosion (height_field.py, lines
    242-260): each interior cell becomes the minimum of its 3x3
    neighborhood; edge cells are not copied back. -/
noncomputable def erodeOnce (gw gh : ℕ) (f : HField) : HField := fun cy cx =>
  if interiorCell gw gh cy cx then
    (neighborOffsets.map (fun d => f (cy - 1 + d.1) (cx - 1 + d.2))).foldl min (f cy cx)
  else f cy cx

/-- AdvancedFlowField.apply_erosion with the given iteration count. -/
noncomputable def applyErosion (gw gh n : ℕ) (f : HField) : HField :=
  (erodeOnce gw gh)^[n] f

/-- One iteration of AdvancedFlowField.apply_dilation (height_field.py,
    lines 262-280): each interior cell becomes the maximum of its 3x3
    neighborhood. -/
noncomputable def dilateOnce (gw gh : ℕ) (f : HField) : HField := fun cy cx =>
  if interiorCell gw gh cy cx then
    (neighborOffsets.map (fun d => f (cy - 1 + d.1) (cx - 1 + d.2))).foldl max (f cy cx)
  else f cy cx

/-- AdvancedFlowField.apply_dilation with the given iteration count. -/
noncomputable def applyDilation (gw gh n : ℕ) (f : HField) : HField :=
  (dilateOnce gw gh)^[n] f

/-- One iteration of AdvancedFlowField.smooth_terrain_advanced
    (height_field.py, lines 209-240): weighted 3x3 average (center 4, edge
    neighbors 2, corners 1, total weight 16) blended with the original value
    by the given strength; interior cells only. -/
noncomputable def smoothOnce (gw gh : ℕ) (strength : ℝ) (f : HField) : HField := fun cy cx =>
  if interiorCell gw gh cy cx then
    let total :=
      4 * f cy cx
        + 2 * (f (cy - 1) cx + f (cy + 1) cx + f cy (cx - 1) + f cy (cx + 1))
        + (f (cy - 1) (cx - 1) + f (cy - 1) (cx + 1)
            + f (cy + 1) (cx - 1) + f (cy + 1) (cx + 1))
    let smoothed := total / 16
    (1 - strength) * f cy cx + strength * smoothed
  else f cy cx

/-- AdvancedFlowField.smooth_terrain_advanced with the given iteration count
    and strength. -/
noncomputable def smoothTerrainAdvanced (gw gh n : ℕ) (strength : ℝ) (f : HField) : HField :=
  (smoothOnce gw gh strength)^[n] f

/-- AdvancedFlowField.apply_border_fade (height_field.py, lines 413-425):
    raise every cell within fadeGrid of an edge to at least
    (1 - dist/fadeGrid) * 0.8. -/
noncomputable def applyBorderFade (gw gh fadeGrid : ℕ) (f : HField) : HField := fun cy cx =>
  if cy < gh ∧ cx < gw then
    let dist := min (min cx cy) (min (gw - 1 - cx) (gh - 1 - cy))
    if dist < fadeGrid then
      max (f cy cx) ((1 - (dist : ℝ) / (fadeGrid : ℝ)) * (8/10))
    else f cy cx
  else f cy cx

/-- AdvancedFlowField.add_solid_border (height_field.py, lines 356-372): the
    top/bottom loops set rows y and gh-1-y to 1.0 for y < min(bwy, gh) and
    all columns; the left/right loops set columns x and gw-1-x to 1.0 for
    x < min(bwx, gw) and all rows. -/
noncomputable def addSolidBorder (gw gh bwy bwx : ℕ) (f : HField) : HField := fun cy cx =>
  if cx < gw ∧ cy < gh ∧
      (cy < min bwy gh ∨ gh - 1 - cy < min bwy gh ∨
       cx < min bwx gw ∨ gw - 1 - cx < min bwx gw) then 1
  else f cy cx

/-- Four-neighbor adjacency of grid cells (x, y), as used by the flood fill
    of remove_small_terrain_pieces. -/
def cellAdj (a b : ℕ × ℕ) : Prop :=
  (a.1 = b.1 ∧ (a.2 = b.2 + 1 ∨ b.2 = a.2 + 1)) ∨
  (a.2 = b.2 ∧ (a.1 = b.1 + 1 ∨ b.1 = a.1 + 1))

/-- One admissible expansion step of the flood fill in
    remove_small_terrain_pieces: move to an adjacent in-grid cell whose
    value exceeds the hard-coded threshold 0.3. -/
def regionStep (gw gh : ℕ) (f : HField) (a b : ℕ × ℕ) : Prop :=
  b.1 < gw ∧ b.2 < gh ∧ cellAdj a b ∧ f b.2 b.1 > 3/10

/-- The connected terrain region found by the flood fill of
    remove_small_terrain_pieces starting from cell c: all cells reachable
    from c through solid in-grid cells. -/
def regionOf (gw gh : ℕ) (f : HField) (c : ℕ × ℕ) : Set (ℕ × ℕ) :=
  {d | Relation.ReflTransGen (regionStep gw gh f) c d}

/-- AdvancedFlowField.remove_small_terrain_pieces (height_field.py, lines
    374-411): every solid cell (value above 0.3) whose connected terrain
    region has fewer than minGridSize cells is cleared to 0.0; all other
    cells are unchanged.  The Python stack-based flood fill computes exactly
    the connected component of its start cell, and regions are disjoint, so
    the sequential removal is equivalent to this per-cell description. -/
noncomputable def removeSmallTerrainPieces (gw gh minGridSize : ℕ) (f : HField) : HField :=
  fun cy cx =>
    if cx < gw ∧ cy < gh ∧ f cy cx > 3/10 ∧
        (regionOf gw gh f (cx, cy)).ncard < minGridSize then 0
    else f cy cx

/-- One carving application inside _carve_smooth_channel (height_field.py,
    lines 325-333): subtract a falloff erosion from every in-grid cell whose
    integer offset (dx, dy) from (int(x), int(y)) satisfies
    sqrt(dx^2+dy^2) <= current_width.  (The source loops dx, dy over
    [-int(w), int(w)]; for integer offsets that range is implied by the
    distance bound, since |dx| <= sqrt(dx^2+dy^2) <= w gives
    |dx| <= int(w).) -/
noncomputable def carveAt (gw gh : ℕ) (cxI cyI : ℤ) (cw strength : ℝ) (f : HField) :
    HField := fun ry rx =>
  let dist := Real.sqrt ((((rx : ℤ) - cxI : ℤ) : ℝ) ^ 2 + (((ry : ℤ) - cyI : ℤ) : ℝ) ^ 2)
  if rx < gw ∧ ry < gh ∧ dist ≤ cw then
    f ry rx - strength * max 0 (1 - dist / cw)
  else f ry rx

/-- The body of _carve_smooth_channel (height_field.py, lines 308-354) as a
    step-indexed recursion: each step checks the margin bounds, draws the
    channel width, carves, updates the direction with the center bias and a
    random perturbation, draws the step size and advances.  The draw-stream
    position k is threaded explicitly. -/
noncomputable def carveChannelSteps (gw gh : ℕ) (baseWidth strength : ℝ) (u : ℕ → ℝ) :
    ℕ → ℝ × ℝ × ℝ × ℕ × HField → ℕ × HField
  | 0, (_, _, _, k, f) => (k, f)
  | n + 1, (x, y, dir, k, f) =>
    if x < 2 ∨ x ≥ (gw : ℝ) - 2 ∨ y < 2 ∨ y ≥ (gh : ℝ) - 2 then (k, f)
    else
      let currentWidth := baseWidth + rngUniform (-1) 1 (u k)
      let f1 := carveAt gw gh (pyInt x) (pyInt y) currentWidth strength f
      let toCenterAngle := pyAtan2 ((gh : ℝ) / 2 - y) ((gw : ℝ) / 2 - x)
      let dir1 := (7/10) * dir + (2/10) * toCenterAngle
        + (1/10) * rngUniform (-(Real.pi / 3)) (Real.pi / 3) (u (k + 1))
      let stepSize := 12/10 + rngUniform (-(2/10)) (2/10) (u (k + 2))
      carveChannelSteps gw gh baseWidth strength u n
        (x + Real.cos dir1 * stepSize, y + Real.sin dir1 * stepSize, dir1, k + 3, f1)

/-- AdvancedFlowField._carve_smooth_channel: length int(30 + complexity*60),
    base width 3 + int(complexity*4), strength 0.3 + complexity*0.4. -/
noncomputable def carveSmoothChannel (gw gh : ℕ) (complexity : ℝ) (u : ℕ → ℝ)
    (startX startY dir0 : ℝ) (k : ℕ) (f : HField) : ℕ × HField :=
  let channelLength := (pyInt (30 + complexity * 60)).toNat
  let baseWidth := 3 + ((pyInt (complexity * 4) : ℤ) : ℝ)
  let strength := 3/10 + complexity * (4/10)
  carveChannelSteps gw gh baseWidth strength u channelLength (startX, startY, dir0, k, f)

/-- The channel loop of AdvancedFlowField.create_flowing_channels_smooth
    (height_field.py, lines 282-306): channel i starts from the top, left,
    bottom or right edge band according to i mod 4, with two randint draws
    for the start cell. -/
noncomputable def channelsLoop (gw gh : ℕ) (complexity : ℝ) (u : ℕ → ℝ) :
    ℕ → ℕ → ℕ → HField → ℕ × HField
  | 0, _, k, f => (k, f)
  | n + 1, i, k, f =>
    let start : ℤ × ℤ × ℝ :=
      if i % 4 = 0 then
        (pyRandint (gw / 4) (3 * gw / 4) (u k), pyRandint 0 (gh / 6) (u (k + 1)),
          Real.pi / 2)
      else if i % 4 = 1 then
        (pyRandint 0 (gw / 6) (u k), pyRandint (gh / 4) (3 * gh / 4) (u (k + 1)), 0)
      else if i % 4 = 2 then
        (pyRandint (gw / 4) (3 * gw / 4) (u k),
          pyRandint (5 * gh / 6) ((gh : ℤ) - 1) (u (k + 1)), -(Real.pi / 2))
      else
        (pyRandint (5 * gw / 6) ((gw : ℤ) - 1) (u k),
          pyRandint (gh / 4) (3 * gh / 4) (u (k + 1)), Real.pi)
    let next := carveSmoothChannel gw gh complexity u
      ((start.1 : ℝ)) ((start.2.1 : ℝ)) start.2.2 (k + 2) f
    channelsLoop gw gh complexity u n (i + 1) next.1 next.2

/-- AdvancedFlowField.create_flowing_channels_smooth: number of channels
    max(2, int(3 + complexity*8)). -/
noncomputable def createFlowingChannelsSmooth (gw gh : ℕ) (complexity : ℝ) (u : ℕ → ℝ)
    (k : ℕ) (f : HField) : ℕ × HField :=
  channelsLoop gw gh complexity u (max 2 (pyInt (3 + complexity * 8)).toNat) 0 k f

/-- FlowingTerrainGenerator.generate_terrain (terrain/generator.py, lines
    58-108).  The base field produced by generate_base_terrain is the result
    of numpy/scipy library calls (np.random.rand followed by a gaussian
    filter and normalization) and enters here as the arbitrary input field
    base; every stage that follows is embedded from the source.  The
    configuration values BORDER_FADE_DISTANCE, EROSION_ITERATIONS,
    SMOOTHING_ITERATIONS, SMOOTHING_STRENGTH and MIN_TERRAIN_REGION_SIZE are
    absent from config.py and are therefore parameters here
    (SOLID_BORDER_WIDTH exists and equals 150). -/
noncomputable def generateTerrainObstacle (W H bwpx fadepx ei si mrs : ℕ)
    (ss complexity : ℝ) (base : HField) (u : ℕ → ℝ) (k : ℕ) : FlowingTerrainObstacle :=
  let gw := W / 8
  let gh := H / 8
  let f0 := (createFlowingChannelsSmooth gw gh complexity u k base).2
  let f1 := applyBorderFade gw gh (max 1 (fadepx / (W / gw))) f0
  let f2 := addSolidBorder gw gh (max 1 (bwpx / (H / gh))) (max 1 (bwpx / (W / gw))) f1
  let f3 := applyErosion gw gh ei f2
  let f4 := smoothTerrainAdvanced gw gh si ss f3
  let f5 := applyDilation gw gh 1 f4
  let f6 := removeSmallTerrainPieces gw gh (max 4 (mrs / (W / gw))) f5
  let f7 := smoothTerrainAdvanced gw gh 2 (3/10) f6
  { heightField := f7
    threshold := 1/4 + complexity * (7/20)
    scaleX := (W : ℝ) / (gw : ℝ)
    scaleY := (H : ℝ) / (gh : ℝ)
    gridWidth := gw
    gridHeight := gh }

/-- The concrete 25x25 height field used to refute the reachability claim:
    two open pockets, cells [2,9]x[8,16] and [16,21]x[9,15] (x, y in grid
    cells), separated by a solid wall spanning columns 10-15 at every row;
    all other cells solid. -/
noncomputable def heightF0 : HField := fun cy cx =>
  if (2 ≤ cx ∧ cx ≤ 9 ∧ 8 ≤ cy ∧ cy ≤ 16) ∨ (16 ≤ cx ∧ cx ≤ 21 ∧ 9 ≤ cy ∧ cy ≤ 15)
  then 0 else 1

/-- The concrete terrain obstacle for the reachability counterexample: a
    400x400 world at 16 pixels per cell, threshold 1/2. -/
noncomputable def T0 : FlowingTerrainObstacle :=
  { heightField := heightF0, threshold := 1/2, scaleX := 16, scaleY := 16
    gridWidth := 25, gridHeight := 25 }

/-- The concrete raw draw stream for the counterexample: the first spawn
    attempt lands at (96, 200) and the first goal attempt at (304, 200). -/
noncomputable def u0 : ℕ → ℝ := fun n =>
  if n = 0 then 1/15 else if n = 1 then 1/2 else if n = 2 then 14/15 else 1/2

/-- The spawn zone the validator returns on the counterexample input
    (radius 4 x marble radius = 60). -/
noncomputable def spawnZ0 : Zone := ⟨96, 200, 60, ZoneType.spawn⟩

/-- The goal zone the validator returns on the counterexample input
    (radius 3 x marble radius = 45). -/
noncomputable def goalZ0 : Zone := ⟨304, 200, 45, ZoneType.goal⟩

theorem normSq_normalizeVelocity (m : Marble) (hm : 0 ≤ m.speed) :
    Real.sqrt ((normalizeVelocity m).velocityX ^ 2 + (normalizeVelocity m).velocityY ^ 2)
      = m.speed := by
  unfold normalizeVelocity
  set n := Real.sqrt (m.velocityX ^ 2 + m.velocityY ^ 2) with hn
  by_cases h : n < COLLISION_POSITION_TOLERANCE
  · rw [if_pos h]
    have : (Real.cos (pyAtan2 m.y m.x + 1) * m.speed) ^ 2
        + (Real.sin (pyAtan2 m.y m.x + 1) * m.speed) ^ 2
        = m.speed ^ 2 * (Real.sin (pyAtan2 m.y m.x + 1) ^ 2
            + Real.cos (pyAtan2 m.y m.x + 1) ^ 2) := by ring
    rw [this, Real.sin_sq_add_cos_sq, mul_one, Real.sqrt_sq hm]
  · rw [if_neg h]
    push_neg at h
    have hn0 : 0 < n := lt_of_lt_of_le (by norm_num [COLLISION_POSITION_TOLERANCE]) h
    have hsq : n ^ 2 = m.velocityX ^ 2 + m.velocityY ^ 2 := by
      rw [hn, Real.sq_sqrt (by positivity)]
    have : (m.velocityX * (m.speed / n)) ^ 2 + (m.velocityY * (m.speed / n)) ^ 2
        = (m.velocityX ^ 2 + m.velocityY ^ 2) * (m.speed / n) ^ 2 := by ring
    rw [this, ← hsq]
    rw [show (n ^ 2) * (m.speed / n) ^ 2 = (n * (m.speed / n)) ^ 2 by ring]
    rw [mul_div_cancel₀ _ (ne_of_gt hn0)]
    exact Real.sqrt_sq hm

theorem sqrt_trig_norm (θ c : ℝ) (hc : 0 ≤ c) :
    Real.sqrt ((Real.cos θ * c) ^ 2 + (Real.sin θ * c) ^ 2) = c := by
  have : (Real.cos θ * c) ^ 2 + (Real.sin θ * c) ^ 2
      = c ^ 2 * (Real.sin θ ^ 2 + Real.cos θ ^ 2) := by ring
  rw [this, Real.sin_sq_add_cos_sq, mul_one, Real.sqrt_sq hc]

theorem sqrt_scale_norm (a b c n : ℝ) (hn : n = Real.sqrt (a ^ 2 + b ^ 2))
    (hpos : 0 < n) (hc : 0 ≤ c) :
    Real.sqrt ((a * (c / n)) ^ 2 + (b * (c / n)) ^ 2) = c := by
  have hsq : n ^ 2 = a ^ 2 + b ^ 2 := by rw [hn, Real.sq_sqrt (by positivity)]
  have h1 : (a * (c / n)) ^ 2 + (b * (c / n)) ^ 2 = (a ^ 2 + b ^ 2) * (c / n) ^ 2 := by
    ring
  rw [h1, ← hsq, show (n ^ 2) * (c / n) ^ 2 = (n * (c / n)) ^ 2 by ring,
    mul_div_cancel₀ _ (ne_of_gt hpos), Real.sqrt_sq hc]

/-- Claim C2: for every marble, at the end of every physics step (the
    constant-speed restoration closing PhysicsEngine.update_physics, and
    likewise after every CollisionDetector._normalize_velocity), the
    Euclidean magnitude of the velocity equals the marble fixed scalar
    speed; in the exact-real model the equality is exact, hence within any
    floating-point tolerance such as 1e-6 relative.  The velocity left by
    the pymunk step is universally quantified, so collisions change
    direction only, never the speed magnitude. -/
theorem claim2_speed_invariant (m : Marble) (px py vx vy s : ℝ)
    (hs : 0 ≤ s) (hm : 0 ≤ m.speed) :
    Real.sqrt ((restoreConstantSpeed px py s vx vy).1 ^ 2
        + (restoreConstantSpeed px py s vx vy).2 ^ 2) = s ∧
    Real.sqrt ((normalizeVelocity m).velocityX ^ 2
        + (normalizeVelocity m).velocityY ^ 2) = m.speed := by
  constructor
  · unfold restoreConstantSpeed
    by_cases h : Real.sqrt (vx * vx + vy * vy) > 1/1000
    · rw [if_pos h]
      have hpos : 0 < Real.sqrt (vx * vx + vy * vy) := lt_trans (by norm_num) h
      exact sqrt_scale_norm vx vy s _ (by ring_nf) hpos hs
    · rw [if_neg h]
      exact sqrt_trig_norm _ s hs
  · exact normSq_normalizeVelocity m hm

theorem claim2_speed_invariant_witness :
    (0 : ℝ) ≤ 5 ∧ (0 : ℝ) ≤ (Marble.mk 0 0 15 175 105 140).speed ∧
    (Real.sqrt ((restoreConstantSpeed 0 0 5 3 4).1 ^ 2
        + (restoreConstantSpeed 0 0 5 3 4).2 ^ 2) = 5 ∧
     Real.sqrt ((normalizeVelocity (Marble.mk 0 0 15 175 105 140)).velocityX ^ 2
        + (normalizeVelocity (Marble.mk 0 0 15 175 105 140)).velocityY ^ 2)
        = (Marble.mk 0 0 15 175 105 140).speed) :=
  ⟨by norm_num, by norm_num,
    claim2_speed_invariant (Marble.mk 0 0 15 175 105 140) 0 0 3 4 5
      (by norm_num) (by norm_num)⟩

/-- Claim C7: whenever the queried disc extends beyond the world bounds of
    the terrain grid, or any sample point of the circular sampling falls
    outside the grid, FlowingTerrainObstacle.check_collision returns True:
    out-of-bounds queries are treated as solid. -/
theorem claim7_oob_collision (T : FlowingTerrainObstacle) (x y r : ℝ)
    (h : (x - r < 0 ∨ x + r > (T.gridWidth : ℝ) * T.scaleX ∨
          y - r < 0 ∨ y + r > (T.gridHeight : ℝ) * T.scaleY) ∨
         ∃ p ∈ collisionSamplePoints x y r,
           (pyInt (p.1 / T.scaleX) < 0 ∨ (T.gridWidth : ℤ) ≤ pyInt (p.1 / T.scaleX) ∨
            pyInt (p.2 / T.scaleY) < 0 ∨ (T.gridHeight : ℤ) ≤ pyInt (p.2 / T.scaleY))) :
    checkCollision T x y r = true := by
  unfold checkCollision
  rcases h with hb | ⟨p, hp, hoob⟩
  · rw [if_pos hb]
  · by_cases h1 : (x - r < 0 ∨ x + r > (T.gridWidth : ℝ) * T.scaleX ∨
        y - r < 0 ∨ y + r > (T.gridHeight : ℝ) * T.scaleY)
    · rw [if_pos h1]
    · rw [if_neg h1]
      by_cases h2 : (pyInt (x / T.scaleX) < 0 ∨ (T.gridWidth : ℤ) ≤ pyInt (x / T.scaleX) ∨
          pyInt (y / T.scaleY) < 0 ∨ (T.gridHeight : ℤ) ≤ pyInt (y / T.scaleY))
      · rw [if_pos h2]
      · rw [if_neg h2]
        by_cases h3 : T.heightField (pyInt (y / T.scaleY)).toNat
            (pyInt (x / T.scaleX)).toNat > T.threshold
        · rw [if_pos h3]
        · rw [if_neg h3]
          rw [List.any_eq_true]
          refine ⟨p, hp, ?_⟩
          unfold sampleHitsTerrain
          rw [if_pos hoob]

theorem claim7_oob_collision_witness :
    ((1 : ℝ) - 2 < 0 ∨ (1 : ℝ) + 2 > ((4 : ℕ) : ℝ) * 8 ∨ (1 : ℝ) - 2 < 0 ∨
        (1 : ℝ) + 2 > ((4 : ℕ) : ℝ) * 8) ∧
    checkCollision (FlowingTerrainObstacle.mk (fun _ _ => 0) 0 8 8 4 4) 1 1 2 = true := by
  have hb : (1 : ℝ) - 2 < 0 ∨ (1 : ℝ) + 2 > ((4 : ℕ) : ℝ) * 8 ∨ (1 : ℝ) - 2 < 0 ∨
      (1 : ℝ) + 2 > ((4 : ℕ) : ℝ) * 8 := by left; norm_num
  exact ⟨hb, claim7_oob_collision _ 1 1 2 (Or.inl hb)⟩

theorem sqrt_axis_unit (a b : ℝ)
    (h : (a = 1 ∧ b = 0) ∨ (a = -1 ∧ b = 0) ∨ (a = 0 ∧ b = 1) ∨ (a = 0 ∧ b = -1)) :
    Real.sqrt (a ^ 2 + b ^ 2) = 1 := by
  have h1 : a ^ 2 + b ^ 2 = 1 := by
    rcases h with ⟨rfl, rfl⟩ | ⟨rfl, rfl⟩ | ⟨rfl, rfl⟩ | ⟨rfl, rfl⟩ <;> norm_num
  rw [h1, Real.sqrt_one]

/-- Claim C10: for every input point, FlowingTerrainObstacle.
    get_collision_normal returns a vector of Euclidean norm exactly one — a
    boundary axis unit vector, a normalized gradient, or a cardinal escape
    direction — and never the zero vector.  The grid hypotheses mirror the
    index range in which the clamped Python gradient access does not fault. -/
theorem claim10_normal_is_unit (T : FlowingTerrainObstacle) (mx my : ℝ)
    (hgw : 3 ≤ T.gridWidth) (hgh : 3 ≤ T.gridHeight) :
    Real.sqrt ((getCollisionNormal T mx my).1 ^ 2 + (getCollisionNormal T mx my).2 ^ 2) = 1
      ∧ getCollisionNormal T mx my ≠ (0, 0) := by
  have hnorm : Real.sqrt ((getCollisionNormal T mx my).1 ^ 2
      + (getCollisionNormal T mx my).2 ^ 2) = 1 := by
    simp only [getCollisionNormal]
    split_ifs with h1 h2 h3 h4 h5
    · exact sqrt_axis_unit 1 0 (by norm_num)
    · exact sqrt_axis_unit (-1) 0 (by norm_num)
    · exact sqrt_axis_unit 0 1 (by norm_num)
    · exact sqrt_axis_unit 0 (-1) (by norm_num)
    · set gx := max 1 (min ((T.gridWidth : ℤ) - 2) (pyInt (mx / T.scaleX))) with hgx
      set gy := max 1 (min ((T.gridHeight : ℤ) - 2) (pyInt (my / T.scaleY))) with hgy
      set nx := -((T.heightField gy.toNat (gx + 1).toNat
        - T.heightField gy.toNat (gx - 1).toNat) * (1/2)) with hnx
      set ny := -((T.heightField (gy + 1).toNat gx.toNat
        - T.heightField (gy - 1).toNat gx.toNat) * (1/2)) with hny
      set L := Real.sqrt (nx * nx + ny * ny) with hL
      have hLpos : 0 < L := lt_trans (by norm_num) h5
      have hsum : 0 < nx * nx + ny * ny := by
        by_contra hc
        push_neg at hc
        have h0 : nx * nx + ny * ny = 0 :=
          le_antisymm hc (by nlinarith [sq_nonneg nx, sq_nonneg ny])
        rw [hL, h0, Real.sqrt_zero] at hLpos
        exact lt_irrefl 0 hLpos
      have hLsq : L ^ 2 = nx * nx + ny * ny := by
        rw [hL, Real.sq_sqrt (le_of_lt hsum)]
      have h6 : (nx / L) ^ 2 + (ny / L) ^ 2 = (nx * nx + ny * ny) / L ^ 2 := by ring
      rw [h6, ← hLsq, div_self (by positivity), Real.sqrt_one]
    · simp only [findEscapeDirectionSimple]
      split_ifs
      · exact sqrt_axis_unit 0 (-1) (by norm_num)
      · exact sqrt_axis_unit 1 0 (by norm_num)
      · exact sqrt_axis_unit 0 1 (by norm_num)
      · exact sqrt_axis_unit (-1) 0 (by norm_num)
      · exact sqrt_axis_unit 1 0 (by norm_num)
  refine ⟨hnorm, ?_⟩
  intro hzero
  rw [hzero] at hnorm
  norm_num at hnorm

theorem claim10_normal_is_unit_witness :
    3 ≤ (FlowingTerrainObstacle.mk (fun _ _ => 1) (1/2) 8 8 3 3).gridWidth ∧
    3 ≤ (FlowingTerrainObstacle.mk (fun _ _ => 1) (1/2) 8 8 3 3).gridHeight ∧
    (Real.sqrt ((getCollisionNormal (FlowingTerrainObstacle.mk (fun _ _ => 1) (1/2) 8 8 3 3) 2 12).1 ^ 2
        + (getCollisionNormal (FlowingTerrainObstacle.mk (fun _ _ => 1) (1/2) 8 8 3 3) 2 12).2 ^ 2) = 1
      ∧ getCollisionNormal (FlowingTerrainObstacle.mk (fun _ _ => 1) (1/2) 8 8 3 3) 2 12 ≠ (0, 0)) :=
  ⟨by norm_num, by norm_num,
    claim10_normal_is_unit (FlowingTerrainObstacle.mk (fun _ _ => 1) (1/2) 8 8 3 3) 2 12
      (by norm_num) (by norm_num)⟩

theorem normalizeVelocity_id_of_norm_eq (m : Marble)
    (h : Real.sqrt (m.velocityX ^ 2 + m.velocityY ^ 2) = m.speed)
    (hsp : COLLISION_POSITION_TOLERANCE ≤ m.speed) :
    normalizeVelocity m = m := by
  have hne : m.speed ≠ 0 := by
    have : (0 : ℝ) < COLLISION_POSITION_TOLERANCE := by
      norm_num [COLLISION_POSITION_TOLERANCE]
    exact ne_of_gt (lt_of_lt_of_le this hsp)
  simp only [normalizeVelocity, h]
  rw [if_neg (not_lt.2 hsp), div_self hne]
  cases m
  simp

/-- Claim C9: a marble whose disc overlaps the left arena boundary while its
    x-velocity is negative has, after one _resolve_boundary_collisions call
    (with the configured COLLISION_BOUNDARY_PRECISION = True), its
    x-velocity sign flipped, its x-position clamped to exactly radius from
    the edge, and its y-velocity and y-position unchanged.  The marble is
    assumed clear of the top and bottom boundaries and to satisfy the speed
    invariant |velocity| = speed. -/
theorem claim9_left_boundary_reflection (m : Marble) (aw ah : ℝ)
    (hleft : m.x - m.radius < 0) (hvx : m.velocityX < 0)
    (hytop : ¬(m.y - m.radius < 0)) (hybot : ¬(m.y + m.radius > ah))
    (hnorm : Real.sqrt (m.velocityX ^ 2 + m.velocityY ^ 2) = m.speed)
    (hsp : COLLISION_POSITION_TOLERANCE ≤ m.speed) :
    (resolveBoundaryCollisions m aw ah).x = m.radius ∧
    (resolveBoundaryCollisions m aw ah).velocityX = -m.velocityX ∧
    (resolveBoundaryCollisions m aw ah).velocityY = m.velocityY ∧
    (resolveBoundaryCollisions m aw ah).y = m.y := by
  have hres : resolveBoundaryCollisions m aw ah
      = normalizeVelocity { m with x := m.radius, velocityX := -m.velocityX } := by
    simp only [resolveBoundaryCollisions, COLLISION_BOUNDARY_PRECISION, if_true]
    rw [if_pos hleft]
    simp only [if_pos hvx]
    rw [if_neg hytop, if_neg hybot]
    simp
  have hid : normalizeVelocity { m with x := m.radius, velocityX := -m.velocityX }
      = { m with x := m.radius, velocityX := -m.velocityX } := by
    apply normalizeVelocity_id_of_norm_eq
    · show Real.sqrt ((-m.velocityX) ^ 2 + m.velocityY ^ 2) = m.speed
      rw [neg_sq]; exact hnorm
    · exact hsp
  rw [hres, hid]
  exact ⟨rfl, rfl, rfl, rfl⟩

theorem claim9_left_boundary_reflection_witness :
    ((10 : ℝ) - 15 < 0 ∧ (-105 : ℝ) < 0 ∧ ¬((480 : ℝ) - 15 < 0) ∧
        ¬((480 : ℝ) + 15 > 960) ∧
        Real.sqrt ((Marble.mk 10 480 15 175 (-105) 140).velocityX ^ 2
          + (Marble.mk 10 480 15 175 (-105) 140).velocityY ^ 2)
          = (Marble.mk 10 480 15 175 (-105) 140).speed ∧
        COLLISION_POSITION_TOLERANCE ≤ (175 : ℝ)) ∧
    ((resolveBoundaryCollisions (Marble.mk 10 480 15 175 (-105) 140) 1280 960).x = 15 ∧
     (resolveBoundaryCollisions (Marble.mk 10 480 15 175 (-105) 140) 1280 960).velocityX
        = -(-105 : ℝ) ∧
     (resolveBoundaryCollisions (Marble.mk 10 480 15 175 (-105) 140) 1280 960).velocityY
        = 140 ∧
     (resolveBoundaryCollisions (Marble.mk 10 480 15 175 (-105) 140) 1280 960).y = 480) := by
  have hnorm : Real.sqrt ((Marble.mk 10 480 15 175 (-105) 140).velocityX ^ 2
      + (Marble.mk 10 480 15 175 (-105) 140).velocityY ^ 2)
      = (Marble.mk 10 480 15 175 (-105) 140).speed := by
    show Real.sqrt (((-105 : ℝ)) ^ 2 + (140 : ℝ) ^ 2) = (175 : ℝ)
    rw [show ((-105 : ℝ)) ^ 2 + (140 : ℝ) ^ 2 = (175 : ℝ) ^ 2 by norm_num]
    exact Real.sqrt_sq (by norm_num)
  refine ⟨⟨by norm_num, by norm_num, by norm_num, by norm_num, hnorm,
    by norm_num [COLLISION_POSITION_TOLERANCE]⟩, ?_⟩
  exact claim9_left_boundary_reflection (Marble.mk 10 480 15 175 (-105) 140) 1280 960
    (by norm_num) (by norm_num) (by norm_num) (by norm_num) hnorm
    (by norm_num [COLLISION_POSITION_TOLERANCE])

theorem normalizeVelocity_neg_axis (px py r s c : ℝ)
    (hc : COLLISION_POSITION_TOLERANCE ≤ c) (hs0 : 0 ≤ s) :
    normalizeVelocity (Marble.mk px py r s (-c) 0) = Marble.mk px py r s (-s) 0 := by
  have hc0 : (0 : ℝ) < c :=
    lt_of_lt_of_le (by norm_num [COLLISION_POSITION_TOLERANCE]) hc
  have hcur : Real.sqrt ((-c) ^ 2 + (0 : ℝ) ^ 2) = c := by
    rw [neg_sq, show ((0:ℝ) ^ 2 = 0) by norm_num, add_zero, Real.sqrt_sq hc0.le]
  simp only [normalizeVelocity]
  rw [hcur, if_neg (not_lt.2 hc)]
  have h1 : -c * (s / c) = -s := by field_simp [mul_comm]
  simp [h1]

theorem normalizeVelocity_pos_axis (px py r s c : ℝ)
    (hc : COLLISION_POSITION_TOLERANCE ≤ c) (hs0 : 0 ≤ s) :
    normalizeVelocity (Marble.mk px py r s c 0) = Marble.mk px py r s s 0 := by
  have hc0 : (0 : ℝ) < c :=
    lt_of_lt_of_le (by norm_num [COLLISION_POSITION_TOLERANCE]) hc
  have hcur : Real.sqrt (c ^ 2 + (0 : ℝ) ^ 2) = c := by
    rw [show ((0:ℝ) ^ 2 = 0) by norm_num, add_zero, Real.sqrt_sq hc0.le]
  simp only [normalizeVelocity]
  rw [hcur, if_neg (not_lt.2 hc)]
  have h1 : c * (s / c) = s := by field_simp [mul_comm]
  simp [h1]

/-- Claim C8: two overlapping marbles of equal radius and equal speed
    approaching head-on along the x-axis, with velocities (s, 0) and (-s, 0),
    leave one _resolve_marble_collision call with their x-velocities exactly
    swapped and their y-velocities unchanged at zero (exact in the real
    model, hence within tolerance), and the call reports a collision.  The
    hypotheses state the overlap (center distance below the collision
    threshold) and non-degeneracy (distance at least the position
    tolerance). -/
theorem claim8_headon_elastic_swap (x1 x2 y r s : ℝ)
    (h1 : COLLISION_POSITION_TOLERANCE ≤ x2 - x1)
    (h2 : x2 - x1 < r + r - COLLISION_POSITION_TOLERANCE)
    (hs : 1 ≤ s) :
    (resolveMarbleCollision (Marble.mk x1 y r s s 0) (Marble.mk x2 y r s (-s) 0)).1.velocityX
        = -s ∧
    (resolveMarbleCollision (Marble.mk x1 y r s s 0) (Marble.mk x2 y r s (-s) 0)).1.velocityY
        = 0 ∧
    (resolveMarbleCollision (Marble.mk x1 y r s s 0) (Marble.mk x2 y r s (-s) 0)).2.1.velocityX
        = s ∧
    (resolveMarbleCollision (Marble.mk x1 y r s s 0) (Marble.mk x2 y r s (-s) 0)).2.1.velocityY
        = 0 ∧
    (resolveMarbleCollision (Marble.mk x1 y r s s 0) (Marble.mk x2 y r s (-s) 0)).2.2
        = true := by
  have htolpos : (0 : ℝ) < COLLISION_POSITION_TOLERANCE := by
    norm_num [COLLISION_POSITION_TOLERANCE]
  have hd : (0 : ℝ) < x2 - x1 := lt_of_lt_of_le htolpos h1
  have hs0 : (0 : ℝ) ≤ s := le_trans (by norm_num) hs
  have hts : COLLISION_POSITION_TOLERANCE ≤ s := by
    unfold COLLISION_POSITION_TOLERANCE; linarith
  have htsd : COLLISION_POSITION_TOLERANCE ≤ s * COLLISION_VELOCITY_DAMPING := by
    unfold COLLISION_POSITION_TOLERANCE COLLISION_VELOCITY_DAMPING; nlinarith
  have hdist : Real.sqrt ((x2 - x1) ^ 2 + (y - y) ^ 2) = x2 - x1 := by
    rw [sub_self, show ((0:ℝ) ^ 2 = 0) by norm_num, add_zero, Real.sqrt_sq hd.le]
  have hdx : (x2 - x1) / (x2 - x1) = 1 := div_self hd.ne'
  have hdy : (y - y) / (x2 - x1) = 0 := by rw [sub_self, zero_div]
  simp only [resolveMarbleCollision, hdist, hdx, hdy,
    if_neg (not_le.2 h2), if_neg (not_lt.2 h1)]
  simp only [mul_one, mul_zero, zero_mul, add_zero, sub_zero, sub_self]
  have hrel : ¬(-s - s ≥ (0 : ℝ)) := by push_neg; linarith
  have hdamp : COLLISION_VELOCITY_DAMPING < 1 := by
    norm_num [COLLISION_VELOCITY_DAMPING]
  simp only [if_neg hrel, if_pos hdamp]
  have e1 : s + (-s - s) = -s := by ring
  have e2 : -s - (-s - s) = s := by ring
  simp only [e1, e2]
  rw [normalizeVelocity_neg_axis _ _ _ _ _ hts hs0,
      normalizeVelocity_pos_axis _ _ _ _ _ hts hs0]
  dsimp only
  have e3 : -s * COLLISION_VELOCITY_DAMPING = -(s * COLLISION_VELOCITY_DAMPING) := by ring
  simp only [e3, zero_mul]
  rw [normalizeVelocity_neg_axis _ _ _ _ _ htsd hs0,
      normalizeVelocity_pos_axis _ _ _ _ _ htsd hs0]
  simp

theorem claim8_headon_elastic_swap_witness :
    (COLLISION_POSITION_TOLERANCE ≤ (20 : ℝ) - 0 ∧
        (20 : ℝ) - 0 < 15 + 15 - COLLISION_POSITION_TOLERANCE ∧ (1 : ℝ) ≤ 175) ∧
    ((resolveMarbleCollision (Marble.mk 0 100 15 175 175 0)
        (Marble.mk 20 100 15 175 (-175) 0)).1.velocityX = -175 ∧
     (resolveMarbleCollision (Marble.mk 0 100 15 175 175 0)
        (Marble.mk 20 100 15 175 (-175) 0)).1.velocityY = 0 ∧
     (resolveMarbleCollision (Marble.mk 0 100 15 175 175 0)
        (Marble.mk 20 100 15 175 (-175) 0)).2.1.velocityX = 175 ∧
     (resolveMarbleCollision (Marble.mk 0 100 15 175 175 0)
        (Marble.mk 20 100 15 175 (-175) 0)).2.1.velocityY = 0 ∧
     (resolveMarbleCollision (Marble.mk 0 100 15 175 175 0)
        (Marble.mk 20 100 15 175 (-175) 0)).2.2 = true) :=
  ⟨⟨by norm_num [COLLISION_POSITION_TOLERANCE],
    by norm_num [COLLISION_POSITION_TOLERANCE], by norm_num⟩,
   claim8_headon_elastic_swap 0 20 100 15 175
     (by norm_num [COLLISION_POSITION_TOLERANCE])
     (by norm_num [COLLISION_POSITION_TOLERANCE]) (by norm_num)⟩

theorem checkWin_winner_isSome (g : Option Zone) (ms : List Marble)
    (wid : Option ℕ) (h : checkWinCondition g ms = (GameResult.winner, wid)) :
    wid.isSome = true := by
  unfold checkWinCondition at h
  rcases g with _ | z
  · simp at h
  · rcases hfind : ms.findIdx? (fun m => zoneContainsPoint z m.x m.y) with _ | i
    · simp [hfind] at h
    · simp only [hfind] at h
      injection h with h1 h2
      subst h2
      rfl

/-- Claim C3: over any sequence of SimulationManager.update calls, finished
    moves from false to true at most once and never reverts, winner_marble_id
    is non-None exactly when finished is true, and once finished every
    further update is a no-op returning the state unchanged (time, marbles
    and winner frozen).  The pymunk physics update is universally quantified;
    the four conjuncts give the no-op law, preservation of the winner-iff-
    finished invariant by every non-faulting update, the frozen-fields law,
    and the invariant at the initial state. -/
theorem claim3_win_exclusivity (physicsStep : List Marble → List Marble) :
    (∀ (s : ManagerState) (dt : ℝ), s.gameFinished = true →
        managerUpdateRun physicsStep s dt = Except.ok s) ∧
    (∀ (s : ManagerState) (dt : ℝ) (s' : ManagerState),
        managerUpdateRun physicsStep s dt = Except.ok s' →
        s.winnerMarbleId.isSome = s.gameFinished →
        s'.winnerMarbleId.isSome = s'.gameFinished) ∧
    (∀ (s : ManagerState) (dt : ℝ) (s' : ManagerState),
        managerUpdateRun physicsStep s dt = Except.ok s' → s.gameFinished = true →
        s'.gameFinished = true ∧ s'.simulationTime = s.simulationTime ∧
          s'.marbles = s.marbles ∧ s'.winnerMarbleId = s.winnerMarbleId) ∧
    (∀ (marbles : List Marble) (goalZone : Option Zone),
        (managerInitState marbles goalZone).winnerMarbleId.isSome
          = (managerInitState marbles goalZone).gameFinished) := by
  have hnoop : ∀ (s : ManagerState) (dt : ℝ), s.gameFinished = true →
      managerUpdateRun physicsStep s dt = Except.ok s := by
    intro s dt h
    unfold managerUpdateRun
    rw [if_pos h]
  refine ⟨hnoop, ?_, ?_, ?_⟩
  · intro s dt s' hrun hinv
    unfold managerUpdateRun at hrun
    by_cases hf : s.gameFinished = true
    · rw [if_pos hf] at hrun
      injection hrun with h2
      subst h2
      exact hinv
    · rw [if_neg hf] at hrun
      rcases hE : List.mapM (fun m => callMarbleUpdate m [dt]) s.marbles with e | ms
      · simp only [hE] at hrun
        exact absurd hrun (by simp)
      · simp only [hE] at hrun
        rcases hcw : checkWinCondition s.goalZone (physicsStep ms) with ⟨res, wid⟩
        cases res
        · simp only [hcw] at hrun
          injection hrun with h2
          subst h2
          exact hinv
        · simp only [hcw] at hrun
          injection hrun with h2
          subst h2
          simpa using checkWin_winner_isSome _ _ _ hcw
        · simp only [hcw] at hrun
          injection hrun with h2
          subst h2
          exact hinv
        · simp only [hcw] at hrun
          injection hrun with h2
          subst h2
          exact hinv
  · intro s dt s' hrun hf
    rw [hnoop s dt hf] at hrun
    injection hrun with h2
    subst h2
    exact ⟨hf, rfl, rfl, rfl⟩
  · intro marbles goalZone
    rfl

theorem claim3_win_exclusivity_witness :
    (ManagerState.mk 2 true (some 1) [] none).gameFinished = true ∧
    managerUpdateRun id (ManagerState.mk 2 true (some 1) [] none) 1
      = Except.ok (ManagerState.mk 2 true (some 1) [] none) :=
  ⟨rfl, (claim3_win_exclusivity id).1 (ManagerState.mk 2 true (some 1) [] none) 1 rfl⟩

/-- Claim C4 concerns the statement that update can never raise once the
    simulation is running.  In the source it does raise: manager.update calls
    marble.update(dt) with a single argument, while Marble.update requires
    (dt, arena_width, arena_height); under Python call semantics every
    update of an unfinished state with at least one marble therefore raises
    TypeError.  This theorem exhibits the error, refuting the claim. -/
theorem claim4_update_raises (physicsStep : List Marble → List Marble)
    (s : ManagerState) (dt : ℝ)
    (hf : s.gameFinished = false) (hm : s.marbles ≠ []) :
    managerUpdateRun physicsStep s dt = Except.error PyErr.typeError := by
  unfold managerUpdateRun
  rw [if_neg (by simp [hf])]
  rcases hms : s.marbles with _ | ⟨m, tl⟩
  · exact absurd hms hm
  · simp only [hms, List.mapM_cons, callMarbleUpdate]
    simp [bind, Except.bind]

theorem claim4_update_raises_witness :
    (ManagerState.mk 0 false none [Marble.mk 5 5 1 1 1 0] none).gameFinished = false ∧
    (ManagerState.mk 0 false none [Marble.mk 5 5 1 1 1 0] none).marbles ≠ [] ∧
    managerUpdateRun id (ManagerState.mk 0 false none [Marble.mk 5 5 1 1 1 0] none) 1
      = Except.error PyErr.typeError :=
  ⟨rfl, by simp,
   claim4_update_raises id (ManagerState.mk 0 false none [Marble.mk 5 5 1 1 1 0] none) 1
     rfl (by simp)⟩

theorem iterate_preserves_cell (g : HField → HField) (cy cx : ℕ)
    (hg : ∀ f : HField, g f cy cx = f cy cx) :
    ∀ (n : ℕ) (f : HField), (g^[n] f) cy cx = f cy cx := by
  intro n
  induction n with
  | zero => intro f; rfl
  | succ n ih =>
    intro f
    rw [Function.iterate_succ_apply', hg, ih]

theorem border_not_interior (gw gh cy cx : ℕ) (hcy : cy < gh) (hcx : cx < gw)
    (hb : cy = 0 ∨ cy = gh - 1 ∨ cx = 0 ∨ cx = gw - 1) :
    ¬ interiorCell gw gh cy cx := by
  unfold interiorCell
  omega

theorem addSolidBorder_border (gw gh bwy bwx : ℕ) (f : HField) (cy cx : ℕ)
    (hcy : cy < gh) (hcx : cx < gw) (hbwy : 1 ≤ bwy) (hbwx : 1 ≤ bwx)
    (hb : cy = 0 ∨ cy = gh - 1 ∨ cx = 0 ∨ cx = gw - 1) :
    addSolidBorder gw gh bwy bwx f cy cx = 1 := by
  unfold addSolidBorder
  rw [if_pos]
  refine ⟨hcx, hcy, ?_⟩
  omega

theorem regionOf_mem_of_rtg (gw gh : ℕ) (f : HField) (c d : ℕ × ℕ)
    (h : Relation.ReflTransGen (regionStep gw gh f) c d) : d ∈ regionOf gw gh f c := h

theorem regionOf_subset_grid (gw gh : ℕ) (f : HField) (c : ℕ × ℕ)
    (hc : c.1 < gw ∧ c.2 < gh) :
    regionOf gw gh f c ⊆ {p : ℕ × ℕ | p.1 < gw ∧ p.2 < gh} := by
  intro d hd
  induction hd with
  | refl => exact hc
  | tail h1 h2 ih => exact ⟨h2.1, h2.2.1⟩

theorem regionOf_finite (gw gh : ℕ) (f : HField) (c : ℕ × ℕ)
    (hc : c.1 < gw ∧ c.2 < gh) : (regionOf gw gh f c).Finite := by
  apply Set.Finite.subset (Finset.finite_toSet ((Finset.range gw) ×ˢ (Finset.range gh)))
  intro p hp
  have := regionOf_subset_grid gw gh f c hc hp
  simp only [Finset.coe_product, Set.mem_prod, Finset.mem_coe, Finset.mem_range]
  exact ⟨this.1, this.2⟩

theorem rtg_horiz (gw gh : ℕ) (f : HField) (Y : ℕ) (hY : Y < gh)
    (hsolid : ∀ x, x < gw → f Y x > 3/10) :
    ∀ a b, a < gw → b < gw →
      Relation.ReflTransGen (regionStep gw gh f) (a, Y) (b, Y) := by
  have hright : ∀ (d a : ℕ), a + d < gw →
      Relation.ReflTransGen (regionStep gw gh f) (a, Y) (a + d, Y) := by
    intro d
    induction d with
    | zero => intro a _; exact Relation.ReflTransGen.refl
    | succ d ih =>
      intro a hlt
      refine Relation.ReflTransGen.tail (ih a (by omega)) ?_
      refine ⟨by omega, hY, ?_, hsolid _ (by omega)⟩
      right
      exact ⟨rfl, Or.inr (by omega)⟩
  have hleft : ∀ (d a : ℕ), a < gw → d ≤ a →
      Relation.ReflTransGen (regionStep gw gh f) (a, Y) (a - d, Y) := by
    intro d
    induction d with
    | zero => intro a _ _; exact Relation.ReflTransGen.refl
    | succ d ih =>
      intro a ha hd
      refine Relation.ReflTransGen.tail (ih a ha (by omega)) ?_
      refine ⟨by omega, hY, ?_, hsolid _ (by omega)⟩
      right
      exact ⟨rfl, Or.inl (by omega)⟩
  intro a b ha hb
  rcases le_or_lt a b with hab | hab
  · have := hright (b - a) a (by omega)
    rwa [show a + (b - a) = b by omega] at this
  · have := hleft (a - b) a ha (by omega)
    rwa [show a - (a - b) = b by omega] at this

theorem rtg_vert (gw gh : ℕ) (f : HField) (X : ℕ) (hX : X < gw)
    (hsolid : ∀ y, y < gh → f y X > 3/10) :
    ∀ a b, a < gh → b < gh →
      Relation.ReflTransGen (regionStep gw gh f) (X, a) (X, b) := by
  have hdown : ∀ (d a : ℕ), a + d < gh →
      Relation.ReflTransGen (regionStep gw gh f) (X, a) (X, a + d) := by
    intro d
    induction d with
    | zero => intro a _; exact Relation.ReflTransGen.refl
    | succ d ih =>
      intro a hlt
      refine Relation.ReflTransGen.tail (ih a (by omega)) ?_
      refine ⟨hX, by omega, ?_, hsolid _ (by omega)⟩
      left
      exact ⟨rfl, Or.inr (by omega)⟩
  have hup : ∀ (d a : ℕ), a < gh → d ≤ a →
      Relation.ReflTransGen (regionStep gw gh f) (X, a) (X, a - d) := by
    intro d
    induction d with
    | zero => intro a _ _; exact Relation.ReflTransGen.refl
    | succ d ih =>
      intro a ha hd
      refine Relation.ReflTransGen.tail (ih a ha (by omega)) ?_
      refine ⟨hX, by omega, ?_, hsolid _ (by omega)⟩
      left
      exact ⟨rfl, Or.inl (by omega)⟩
  intro a b ha hb
  rcases le_or_lt a b with hab | hab
  · have := hdown (b - a) a (by omega)
    rwa [show a + (b - a) = b by omega] at this
  · have := hup (a - b) a ha (by omega)
    rwa [show a - (a - b) = b by omega] at this

theorem region_big_of_solid_row (gw gh : ℕ) (f : HField) (Y cx : ℕ)
    (hY : Y < gh) (hcx : cx < gw)
    (hsolid : ∀ x, x < gw → f Y x > 3/10) :
    gw ≤ (regionOf gw gh f (cx, Y)).ncard := by
  have hsub : ↑((Finset.range gw).image (fun k => ((k, Y) : ℕ × ℕ)))
      ⊆ regionOf gw gh f (cx, Y) := by
    intro p hp
    simp only [Finset.coe_image, Set.mem_image, Finset.mem_coe, Finset.mem_range] at hp
    obtain ⟨k, hk, rfl⟩ := hp
    exact rtg_horiz gw gh f Y hY hsolid cx k hcx hk
  have hcard : ((Finset.range gw).image (fun k => ((k, Y) : ℕ × ℕ))).card = gw := by
    rw [Finset.card_image_of_injective _ (fun a b h => (Prod.mk.injEq _ _ _ _ ▸ h).1),
      Finset.card_range]
  calc gw = ((Finset.range gw).image (fun k => ((k, Y) : ℕ × ℕ))).card := hcard.symm
    _ = (↑((Finset.range gw).image (fun k => ((k, Y) : ℕ × ℕ))) : Set (ℕ × ℕ)).ncard :=
        (Set.ncard_coe_Finset _).symm
    _ ≤ (regionOf gw gh f (cx, Y)).ncard :=
        Set.ncard_le_ncard hsub (regionOf_finite gw gh f (cx, Y) ⟨hcx, hY⟩)

theorem region_big_of_solid_col (gw gh : ℕ) (f : HField) (X cy : ℕ)
    (hX : X < gw) (hcy : cy < gh)
    (hsolid : ∀ y, y < gh → f y X > 3/10) :
    gh ≤ (regionOf gw gh f (X, cy)).ncard := by
  have hsub : ↑((Finset.range gh).image (fun k => ((X, k) : ℕ × ℕ)))
      ⊆ regionOf gw gh f (X, cy) := by
    intro p hp
    simp only [Finset.coe_image, Set.mem_image, Finset.mem_coe, Finset.mem_range] at hp
    obtain ⟨k, hk, rfl⟩ := hp
    exact rtg_vert gw gh f X hX hsolid cy k hcy hk
  have hcard : ((Finset.range gh).image (fun k => ((X, k) : ℕ × ℕ))).card = gh := by
    rw [Finset.card_image_of_injective _ (fun a b h => (Prod.mk.injEq _ _ _ _ ▸ h).2),
      Finset.card_range]
  calc gh = ((Finset.range gh).image (fun k => ((X, k) : ℕ × ℕ))).card := hcard.symm
    _ = (↑((Finset.range gh).image (fun k => ((X, k) : ℕ × ℕ))) : Set (ℕ × ℕ)).ncard :=
        (Set.ncard_coe_Finset _).symm
    _ ≤ (regionOf gw gh f (X, cy)).ncard :=
        Set.ncard_le_ncard hsub (regionOf_finite gw gh f (X, cy) ⟨hX, hcy⟩)

theorem borderTail (gw gh BWY BWX EI SI MG : ℕ) (SS : ℝ) (f1 : HField) (cy cx : ℕ)
    (hBWY : 1 ≤ BWY) (hBWX : 1 ≤ BWX) (hMGw : MG ≤ gw) (hMGh : MG ≤ gh)
    (hcy : cy < gh) (hcx : cx < gw)
    (hb : cy = 0 ∨ cy = gh - 1 ∨ cx = 0 ∨ cx = gw - 1) :
    smoothTerrainAdvanced gw gh 2 (3/10) (removeSmallTerrainPieces gw gh MG
      (applyDilation gw gh 1 (smoothTerrainAdvanced gw gh SI SS (applyErosion gw gh EI
        (addSolidBorder gw gh BWY BWX f1))))) cy cx = 1 := by
  have hval : ∀ cy' cx', cy' < gh → cx' < gw →
      (cy' = 0 ∨ cy' = gh - 1 ∨ cx' = 0 ∨ cx' = gw - 1) →
      applyDilation gw gh 1 (smoothTerrainAdvanced gw gh SI SS (applyErosion gw gh EI
        (addSolidBorder gw gh BWY BWX f1))) cy' cx' = 1 := by
    intro cy' cx' h1 h2 h3
    have hni := border_not_interior gw gh cy' cx' h1 h2 h3
    unfold applyDilation smoothTerrainAdvanced applyErosion
    rw [iterate_preserves_cell _ cy' cx'
          (fun f => by unfold dilateOnce; exact if_neg hni) 1 _,
        iterate_preserves_cell _ cy' cx'
          (fun f => by unfold smoothOnce; exact if_neg hni) SI _,
        iterate_preserves_cell _ cy' cx'
          (fun f => by unfold erodeOnce; exact if_neg hni) EI _]
    exact addSolidBorder_border gw gh BWY BWX f1 cy' cx' h1 h2 hBWY hBWX h3
  have hni := border_not_interior gw gh cy cx hcy hcx hb
  have hfin : ∀ f : HField, smoothTerrainAdvanced gw gh 2 (3/10) f cy cx = f cy cx := by
    intro f
    unfold smoothTerrainAdvanced
    exact iterate_preserves_cell _ cy cx
      (fun g => by unfold smoothOnce; exact if_neg hni) 2 f
  rw [hfin]
  unfold removeSmallTerrainPieces
  rw [if_neg]
  · exact hval cy cx hcy hcx hb
  · rintro ⟨-, -, -, hlt⟩
    rcases hb with h0 | h0 | h0 | h0
    · subst h0
      refine absurd hlt (not_lt.2 (le_trans hMGw
        (region_big_of_solid_row gw gh _ 0 cx (by omega) hcx ?_)))
      intro x hx
      rw [hval 0 x (by omega) hx (Or.inl rfl)]
      norm_num
    · subst h0
      refine absurd hlt (not_lt.2 (le_trans hMGw
        (region_big_of_solid_row gw gh _ (gh - 1) cx (by omega) hcx ?_)))
      intro x hx
      rw [hval (gh - 1) x (by omega) hx (Or.inr (Or.inl rfl))]
      norm_num
    · subst h0
      refine absurd hlt (not_lt.2 (le_trans hMGh
        (region_big_of_solid_col gw gh _ 0 cy (by omega) hcy ?_)))
      intro y hy
      rw [hval y 0 hy (by omega) (Or.inr (Or.inr (Or.inl rfl)))]
      norm_num
    · subst h0
      refine absurd hlt (not_lt.2 (le_trans hMGh
        (region_big_of_solid_col gw gh _ (gw - 1) cy (by omega) hcy ?_)))
      intro y hy
      rw [hval y (gw - 1) hy (by omega) (Or.inr (Or.inr (Or.inr rfl)))]
      norm_num

/-- Claim C6: for every complexity value in [0, 1] and every height field
    returned by FlowingTerrainGenerator.generate_terrain, all border cells
    of the grid (row 0, the last row, column 0, and the last column) hold
    the fully solid value 1.0, which is at or above the obstacle threshold
    0.25 + 0.35 * complexity: add_solid_border solidifies the border and no
    later pipeline stage (erosion, smoothing, dilation, small-region
    removal) un-solidifies it.  The base field, the carving draw stream and
    the unspecified config iteration counts are universally quantified; the
    two hypotheses on the small-region cutoff state that it does not exceed
    a grid side (with the defaults, max 4 (150/8) = 18 against a 160 x 120
    grid). -/
theorem claim6_border_stays_solid (W H bwpx fadepx ei si mrs : ℕ) (ss complexity : ℝ)
    (base : HField) (u : ℕ → ℝ) (k : ℕ) (cy cx : ℕ)
    (hc1 : complexity ≤ 1)
    (hmgw : max 4 (mrs / (W / (W / 8))) ≤ W / 8)
    (hmgh : max 4 (mrs / (W / (W / 8))) ≤ H / 8)
    (hcy : cy < H / 8) (hcx : cx < W / 8)
    (hb : cy = 0 ∨ cy = H / 8 - 1 ∨ cx = 0 ∨ cx = W / 8 - 1) :
    (generateTerrainObstacle W H bwpx fadepx ei si mrs ss complexity base u k).threshold
      ≤ (generateTerrainObstacle W H bwpx fadepx ei si mrs ss complexity base u k
          ).heightField cy cx := by
  simp only [generateTerrainObstacle]
  rw [borderTail (W / 8) (H / 8) _ _ ei si _ ss _ cy cx
    (le_max_left 1 _) (le_max_left 1 _) hmgw hmgh hcy hcx hb]
  have h1 : complexity * (7/20) ≤ 7/20 := by nlinarith
  linarith

theorem claim6_border_stays_solid_witness :
    ((1 : ℝ)/2 ≤ 1 ∧ max 4 (50 / (1280 / (1280 / 8))) ≤ 1280 / 8 ∧
        max 4 (50 / (1280 / (1280 / 8))) ≤ 960 / 8 ∧ 0 < 960 / 8 ∧ 0 < 1280 / 8) ∧
    (generateTerrainObstacle 1280 960 150 10 2 4 50 (8/10) (1/2)
        (fun _ _ => 0) (fun _ => 0) 0).threshold
      ≤ (generateTerrainObstacle 1280 960 150 10 2 4 50 (8/10) (1/2)
        (fun _ _ => 0) (fun _ => 0) 0).heightField 0 0 :=
  ⟨⟨by norm_num, by norm_num, by norm_num, by norm_num, by norm_num⟩,
   claim6_border_stays_solid 1280 960 150 10 2 4 50 (8/10) (1/2)
     (fun _ _ => 0) (fun _ => 0) 0 0 0 (by norm_num) (by norm_num) (by norm_num)
     (by norm_num) (by norm_num) (Or.inl rfl)⟩

theorem pyInt_eq_floor (x : ℝ) (h : 0 ≤ x) : pyInt x = ⌊x⌋ := if_pos h

theorem checkCollision_eq_false_of_open_box (T : FlowingTerrainObstacle) (x y r : ℝ)
    (hsx : 0 < T.scaleX) (hsy : 0 < T.scaleY) (hr : 0 ≤ r)
    (hx0 : 0 ≤ x - r) (hxW : x + r ≤ (T.gridWidth : ℝ) * T.scaleX)
    (hy0 : 0 ≤ y - r) (hyH : y + r ≤ (T.gridHeight : ℝ) * T.scaleY)
    (hcells : ∀ cx cy : ℤ, ⌊(x - r) / T.scaleX⌋ ≤ cx → cx ≤ ⌊(x + r) / T.scaleX⌋ →
        ⌊(y - r) / T.scaleY⌋ ≤ cy → cy ≤ ⌊(y + r) / T.scaleY⌋ →
        0 ≤ cx ∧ cx < (T.gridWidth : ℤ) ∧ 0 ≤ cy ∧ cy < (T.gridHeight : ℤ) ∧
          T.heightField cy.toNat cx.toNat ≤ T.threshold) :
    checkCollision T x y r = false := by
  have hxlo : ∀ s : ℝ, x - r ≤ s → s ≤ x + r →
      pyInt (s / T.scaleX) = ⌊s / T.scaleX⌋ ∧
      ⌊(x - r) / T.scaleX⌋ ≤ ⌊s / T.scaleX⌋ ∧ ⌊s / T.scaleX⌋ ≤ ⌊(x + r) / T.scaleX⌋ := by
    intro s h1 h2
    refine ⟨pyInt_eq_floor _ (div_nonneg (by linarith) hsx.le), ?_, ?_⟩
    · exact Int.floor_mono ((div_le_div_iff_of_pos_right hsx).2 h1)
    · exact Int.floor_mono ((div_le_div_iff_of_pos_right hsx).2 h2)
  have hylo : ∀ s : ℝ, y - r ≤ s → s ≤ y + r →
      pyInt (s / T.scaleY) = ⌊s / T.scaleY⌋ ∧
      ⌊(y - r) / T.scaleY⌋ ≤ ⌊s / T.scaleY⌋ ∧ ⌊s / T.scaleY⌋ ≤ ⌊(y + r) / T.scaleY⌋ := by
    intro s h1 h2
    refine ⟨pyInt_eq_floor _ (div_nonneg (by linarith) hsy.le), ?_, ?_⟩
    · exact Int.floor_mono ((div_le_div_iff_of_pos_right hsy).2 h1)
    · exact Int.floor_mono ((div_le_div_iff_of_pos_right hsy).2 h2)
  have hsample : ∀ sx sy : ℝ, x - r ≤ sx → sx ≤ x + r → y - r ≤ sy → sy ≤ y + r →
      sampleHitsTerrain T (sx, sy) = false := by
    intro sx sy h1 h2 h3 h4
    obtain ⟨he1, hl1, hl2⟩ := hxlo sx h1 h2
    obtain ⟨he2, hl3, hl4⟩ := hylo sy h3 h4
    obtain ⟨hc1, hc2, hc3, hc4, hc5⟩ :=
      hcells ⌊sx / T.scaleX⌋ ⌊sy / T.scaleY⌋ hl1 hl2 hl3 hl4
    unfold sampleHitsTerrain
    rw [he1, he2, if_neg (by push_neg; exact ⟨not_lt.1 (not_lt.2 hc1), hc2, not_lt.1 (not_lt.2 hc3), hc4⟩),
      if_neg (not_lt.2 hc5)]
  unfold checkCollision
  rw [if_neg (by push_neg; exact ⟨hx0, hxW, hy0, hyH⟩)]
  obtain ⟨he1, hl1, hl2⟩ := hxlo x (by linarith) (by linarith)
  obtain ⟨he2, hl3, hl4⟩ := hylo y (by linarith) (by linarith)
  obtain ⟨hc1, hc2, hc3, hc4, hc5⟩ := hcells _ _ hl1 hl2 hl3 hl4
  rw [he1, he2, if_neg (by push_neg; exact ⟨hc1, hc2, hc3, hc4⟩), if_neg (not_lt.2 hc5)]
  rw [List.any_eq_false]
  intro p hp
  simp [collisionSamplePoints] at hp
  obtain ⟨i, hi, a1, ⟨rr, hrr, rfl⟩, rfl⟩ := hp
  set θ := 2 * Real.pi * (i : ℝ) / 8 with hθ
  set ρ := ((rr : ℝ) + 1) * (r / 2) with hρ
  have hρ0 : 0 ≤ ρ := by
    rw [hρ]; positivity
  have hρr : ρ ≤ r := by
    rw [hρ]
    have hle : ((rr : ℝ) + 1) ≤ 2 := by
      have h1 : (rr : ℝ) ≤ 1 := by exact_mod_cast (by omega : rr ≤ 1)
      linarith
    nlinarith
  have hcos1 : ρ * Real.cos θ ≤ ρ := by
    nlinarith [Real.cos_le_one θ]
  have hcos2 : -ρ ≤ ρ * Real.cos θ := by
    nlinarith [Real.neg_one_le_cos θ]
  have hsin1 : ρ * Real.sin θ ≤ ρ := by
    nlinarith [Real.sin_le_one θ]
  have hsin2 : -ρ ≤ ρ * Real.sin θ := by
    nlinarith [Real.neg_one_le_sin θ]
  have hfin := hsample (x + ρ * Real.cos θ) (y + ρ * Real.sin θ)
    (by linarith) (by linarith) (by linarith) (by linarith)
  simp [hfin]

theorem heightF0_open (cx cy : ℤ)
    (h : (2 ≤ cx ∧ cx ≤ 9 ∧ 8 ≤ cy ∧ cy ≤ 16) ∨
         (16 ≤ cx ∧ cx ≤ 21 ∧ 9 ≤ cy ∧ cy ≤ 15)) :
    heightF0 cy.toNat cx.toNat = 0 := by
  unfold heightF0
  rw [if_pos]
  omega

theorem T0_clear_left (x y : ℝ)
    (h1 : 32 ≤ x - 15) (h2 : x + 15 < 160) (h3 : 128 ≤ y - 15) (h4 : y + 15 < 272) :
    checkCollision T0 x y 15 = false := by
  apply checkCollision_eq_false_of_open_box
  · show (0:ℝ) < (16:ℝ); norm_num
  · show (0:ℝ) < (16:ℝ); norm_num
  · norm_num
  · linarith
  · show x + 15 ≤ ((25:ℕ):ℝ) * 16; push_cast; linarith
  · linarith
  · show y + 15 ≤ ((25:ℕ):ℝ) * 16; push_cast; linarith
  · intro cx cy hc1 hc2 hc3 hc4
    simp only [show T0.scaleX = (16:ℝ) from rfl, show T0.scaleY = (16:ℝ) from rfl]
      at hc1 hc2 hc3 hc4
    have b1 : (2:ℤ) ≤ cx := le_trans (Int.le_floor.2 (by push_cast; linarith)) hc1
    have b2 : cx ≤ 9 := le_trans hc2 (by
      have : ⌊(x + 15) / (16:ℝ)⌋ < 10 := Int.floor_lt.2 (by push_cast; linarith)
      omega)
    have b3 : (8:ℤ) ≤ cy := le_trans (Int.le_floor.2 (by push_cast; linarith)) hc3
    have b4 : cy ≤ 16 := le_trans hc4 (by
      have : ⌊(y + 15) / (16:ℝ)⌋ < 17 := Int.floor_lt.2 (by push_cast; linarith)
      omega)
    refine ⟨by omega, by exact_mod_cast (by omega : cx < 25), by omega,
      by exact_mod_cast (by omega : cy < 25), ?_⟩
    show heightF0 cy.toNat cx.toNat ≤ 1/2
    rw [heightF0_open cx cy (Or.inl ⟨b1, b2, b3, b4⟩)]
    norm_num

theorem T0_clear_right (x y : ℝ)
    (h1 : 256 ≤ x - 15) (h2 : x + 15 < 352) (h3 : 144 ≤ y - 15) (h4 : y + 15 < 256) :
    checkCollision T0 x y 15 = false := by
  apply checkCollision_eq_false_of_open_box
  · show (0:ℝ) < (16:ℝ); norm_num
  · show (0:ℝ) < (16:ℝ); norm_num
  · norm_num
  · linarith
  · show x + 15 ≤ ((25:ℕ):ℝ) * 16; push_cast; linarith
  · linarith
  · show y + 15 ≤ ((25:ℕ):ℝ) * 16; push_cast; linarith
  · intro cx cy hc1 hc2 hc3 hc4
    simp only [show T0.scaleX = (16:ℝ) from rfl, show T0.scaleY = (16:ℝ) from rfl]
      at hc1 hc2 hc3 hc4
    have b1 : (16:ℤ) ≤ cx := le_trans (Int.le_floor.2 (by push_cast; linarith)) hc1
    have b2 : cx ≤ 21 := le_trans hc2 (by
      have : ⌊(x + 15) / (16:ℝ)⌋ < 22 := Int.floor_lt.2 (by push_cast; linarith)
      omega)
    have b3 : (9:ℤ) ≤ cy := le_trans (Int.le_floor.2 (by push_cast; linarith)) hc3
    have b4 : cy ≤ 15 := le_trans hc4 (by
      have : ⌊(y + 15) / (16:ℝ)⌋ < 16 := Int.floor_lt.2 (by push_cast; linarith)
      omega)
    refine ⟨by omega, by exact_mod_cast (by omega : cx < 25), by omega,
      by exact_mod_cast (by omega : cy < 25), ?_⟩
    show heightF0 cy.toNat cx.toNat ≤ 1/2
    rw [heightF0_open cx cy (Or.inr ⟨b1, b2, b3, b4⟩)]
    norm_num

theorem isPositionClear_T0_spawn :
    isPositionClear T0 400 400 96 200 60 15 = true := by
  unfold isPositionClear
  rw [if_neg (by push_neg; norm_num)]
  have c1 : checkCollision T0 96 200 15 = false :=
    T0_clear_left 96 200 (by norm_num) (by norm_num) (by norm_num) (by norm_num)
  have c2 : checkCollision T0 (96 - 60 * (7/10)) 200 15 = false :=
    T0_clear_left _ _ (by norm_num) (by norm_num) (by norm_num) (by norm_num)
  have c3 : checkCollision T0 (96 + 60 * (7/10)) 200 15 = false :=
    T0_clear_left _ _ (by norm_num) (by norm_num) (by norm_num) (by norm_num)
  have c4 : checkCollision T0 96 (200 - 60 * (7/10)) 15 = false :=
    T0_clear_left _ _ (by norm_num) (by norm_num) (by norm_num) (by norm_num)
  have c5 : checkCollision T0 96 (200 + 60 * (7/10)) 15 = false :=
    T0_clear_left _ _ (by norm_num) (by norm_num) (by norm_num) (by norm_num)
  simp [c1, c2, c3, c4, c5]

theorem isPositionClear_T0_goal :
    isPositionClear T0 400 400 304 200 45 15 = true := by
  unfold isPositionClear
  rw [if_neg (by push_neg; norm_num)]
  have c1 : checkCollision T0 304 200 15 = false :=
    T0_clear_right 304 200 (by norm_num) (by norm_num) (by norm_num) (by norm_num)
  have c2 : checkCollision T0 (304 - 45 * (7/10)) 200 15 = false :=
    T0_clear_right _ _ (by norm_num) (by norm_num) (by norm_num) (by norm_num)
  have c3 : checkCollision T0 (304 + 45 * (7/10)) 200 15 = false :=
    T0_clear_right _ _ (by norm_num) (by norm_num) (by norm_num) (by norm_num)
  have c4 : checkCollision T0 304 (200 - 45 * (7/10)) 15 = false :=
    T0_clear_right _ _ (by norm_num) (by norm_num) (by norm_num) (by norm_num)
  have c5 : checkCollision T0 304 (200 + 45 * (7/10)) 15 = false :=
    T0_clear_right _ _ (by norm_num) (by norm_num) (by norm_num) (by norm_num)
  simp [c1, c2, c3, c4, c5]

theorem findSpawnZone_succ (T : FlowingTerrainObstacle)
    (aw ah sr mr buf : ℝ) (u : ℕ → ℝ) (fuel k : ℕ) :
    findSpawnZone T aw ah sr mr buf u (fuel + 1) k =
      if isPositionClear T aw ah (rngUniform buf (aw - buf) (u k))
          (rngUniform buf (ah - buf) (u (k + 1))) sr mr then
        some (⟨rngUniform buf (aw - buf) (u k), rngUniform buf (ah - buf) (u (k + 1)),
          sr, ZoneType.spawn⟩, k + 2)
      else findSpawnZone T aw ah sr mr buf u fuel (k + 2) := by
  conv_lhs => rw [findSpawnZone]

theorem findGoalZone_succ (T : FlowingTerrainObstacle)
    (aw ah : ℝ) (sz : Zone) (gr mr buf : ℝ) (u : ℕ → ℝ) (fuel k : ℕ) :
    findGoalZone T aw ah sz gr mr buf u (fuel + 1) k =
      if Real.sqrt ((rngUniform buf (aw - buf) (u k) - sz.centerX) ^ 2
            + (rngUniform buf (ah - buf) (u (k + 1)) - sz.centerY) ^ 2)
          ≥ min aw ah * (2/10) ∧
          isPositionClear T aw ah (rngUniform buf (aw - buf) (u k))
            (rngUniform buf (ah - buf) (u (k + 1))) gr mr = true then
        some ⟨rngUniform buf (aw - buf) (u k), rngUniform buf (ah - buf) (u (k + 1)),
          gr, ZoneType.goal⟩
      else findGoalZone T aw ah sz gr mr buf u fuel (k + 2) := by
  conv_lhs => rw [findGoalZone]

theorem validate_T0 : validateIndivRaceTerrain T0 400 400 u0 = some (spawnZ0, goalZ0) := by
  simp only [validateIndivRaceTerrain, findAnyValidZones]
  rw [show (MARBLE_RADIUS * 4 : ℝ) = 60 from by norm_num [MARBLE_RADIUS],
      show (MARBLE_RADIUS * 3 : ℝ) = 45 from by norm_num [MARBLE_RADIUS],
      show (MARBLE_RADIUS : ℝ) = 15 from rfl]
  rw [show max (60:ℝ) 45 + 20 = 80 from by
    rw [max_eq_left (by norm_num : (45:ℝ) ≤ 60)]; norm_num]
  rw [show (500:ℕ) = 499 + 1 from rfl, findSpawnZone_succ]
  rw [show rngUniform 80 (400 - 80) (u0 0) = (96:ℝ) from by norm_num [rngUniform, u0],
      show rngUniform 80 (400 - 80) (u0 (0 + 1)) = (200:ℝ) from by
        norm_num [rngUniform, u0]]
  rw [if_pos isPositionClear_T0_spawn]
  dsimp only
  rw [findGoalZone_succ]
  rw [show rngUniform 80 (400 - 80) (u0 (0 + 2)) = (304:ℝ) from by
        norm_num [rngUniform, u0],
      show rngUniform 80 (400 - 80) (u0 (0 + 2 + 1)) = (200:ℝ) from by
        norm_num [rngUniform, u0]]
  rw [show ((304:ℝ) - 96) ^ 2 + ((200:ℝ) - 200) ^ 2 = 208 ^ 2 from by norm_num,
      Real.sqrt_sq (by norm_num : (0:ℝ) ≤ 208), min_self]
  rw [if_pos ⟨by norm_num, isPositionClear_T0_goal⟩]
  rfl

theorem heightF0_solid_wall (cx cy : ℤ) (h1 : 10 ≤ cx) (h2 : cx ≤ 15) (h3 : 0 ≤ cy) :
    heightF0 cy.toNat cx.toNat = 1 := by
  unfold heightF0
  rw [if_neg]
  omega

theorem T0_wall_collides (x y : ℝ) (h1 : 160 ≤ x) (h2 : x < 256) :
    checkCollision T0 x y 15 = true := by
  simp only [checkCollision, show T0.scaleX = (16:ℝ) from rfl,
    show T0.scaleY = (16:ℝ) from rfl, show T0.gridWidth = 25 from rfl,
    show T0.gridHeight = 25 from rfl, show T0.threshold = (1/2:ℝ) from rfl,
    show T0.heightField = heightF0 from rfl, Nat.cast_ofNat]
  split_ifs with hb hc hs
  · rfl
  · rfl
  · rfl
  · exfalso
    push_neg at hb
    obtain ⟨hb1, hb2, hb3, hb4⟩ := hb
    have hgx : pyInt (x / 16) = ⌊x / 16⌋ :=
      pyInt_eq_floor _ (div_nonneg (by linarith) (by norm_num))
    have hgy : pyInt (y / 16) = ⌊y / 16⌋ :=
      pyInt_eq_floor _ (div_nonneg (by linarith) (by norm_num))
    have hx10 : (10:ℤ) ≤ ⌊x / (16:ℝ)⌋ := Int.le_floor.2 (by push_cast; linarith)
    have hx15 : ⌊x / (16:ℝ)⌋ ≤ 15 := by
      have : ⌊x / (16:ℝ)⌋ < 16 := Int.floor_lt.2 (by push_cast; linarith)
      omega
    have hy0 : (0:ℤ) ≤ ⌊y / (16:ℝ)⌋ := Int.le_floor.2 (by push_cast; linarith)
    apply hs
    rw [hgx, hgy, heightF0_solid_wall _ _ hx10 hx15 hy0]
    norm_num

theorem not_specReachable_T0 :
    ¬ specReachable T0 MARBLE_RADIUS (96, 200) (304, 200) := by
  rintro ⟨step, hpos, hlt, p, hpath, hnear⟩
  rw [show MARBLE_RADIUS = (15:ℝ) from rfl] at hlt hnear
  have hinv : ∀ q : ℝ × ℝ,
      Relation.ReflTransGen (specWaveStep T0 MARBLE_RADIUS step) (96, 200) q →
      q.1 < 160 := by
    intro q hq
    induction hq with
    | refl => norm_num
    | tail h1 h2 ih =>
      rename_i b c
      obtain ⟨⟨dx, dy, hdx, hdy, hne, rfl⟩, hvalid⟩ := h2
      have hdxb : (-1 : ℤ) ≤ dx ∧ dx ≤ 1 := by omega
      have hdxr1 : ((dx : ℝ)) ≤ 1 := by exact_mod_cast hdxb.2
      have hdxr2 : (-1 : ℝ) ≤ (dx : ℝ) := by exact_mod_cast hdxb.1
      dsimp only at hvalid ⊢
      by_contra hge
      push_neg at hge
      have hlt175 : b.1 + step * (dx : ℝ) < 175 := by nlinarith
      rw [show MARBLE_RADIUS = (15:ℝ) from rfl] at hvalid
      have hcol := T0_wall_collides (b.1 + step * (dx : ℝ)) (b.2 + step * (dy : ℝ))
        hge (by linarith)
      rw [hvalid] at hcol
      exact Bool.false_ne_true hcol
  have hfar := hinv p hpath
  dsimp only at hnear
  have hchain : (304 : ℝ) - p.1 ≤ Real.sqrt ((p.1 - 304) ^ 2 + (p.2 - 200) ^ 2) := by
    have h1 : (304 : ℝ) - p.1 ≤ |p.1 - 304| := by
      rw [abs_sub_comm]
      exact le_abs_self _
    have h2 : |p.1 - 304| = Real.sqrt ((p.1 - 304) ^ 2) := (Real.sqrt_sq_eq_abs _).symm
    have h3 : Real.sqrt ((p.1 - 304) ^ 2) ≤ Real.sqrt ((p.1 - 304) ^ 2 + (p.2 - 200) ^ 2) :=
      Real.sqrt_le_sqrt (by nlinarith [sq_nonneg (p.2 - 200)])
    linarith
  linarith

/-- Claim C5, counterexample: on the concrete terrain T0 (two open pockets
    separated by a solid wall spanning columns 10-15) and the concrete draw
    stream u0, the zone validator of simple_terrain_validator.py returns the
    pair (spawn at (96, 200), goal at (304, 200)) even though no
    wave-propagation reachability check could succeed: the two centers are
    not connected through open space, refuting the claim that every returned
    pair has passed such a check. -/
theorem claim5_counterexample_unreachable_pair :
    validateIndivRaceTerrain T0 400 400 u0 = some (spawnZ0, goalZ0) ∧
    ¬ specReachable T0 MARBLE_RADIUS (spawnZ0.centerX, spawnZ0.centerY)
      (goalZ0.centerX, goalZ0.centerY) :=
  ⟨validate_T0, not_specReachable_T0⟩

theorem findSpawnZone_postcondition (T : FlowingTerrainObstacle)
    (aw ah sr mr buf : ℝ) (u : ℕ → ℝ) :
    ∀ (fuel k : ℕ) (z : Zone) (j : ℕ),
      findSpawnZone T aw ah sr mr buf u fuel k = some (z, j) →
      isPositionClear T aw ah z.centerX z.centerY sr mr = true := by
  intro fuel
  induction fuel with
  | zero => intro k z j h; exact absurd h (by simp [findSpawnZone])
  | succ n ih =>
    intro k z j h
    rw [findSpawnZone_succ] at h
    split_ifs at h with hc
    · injection h with h2
      obtain ⟨h3, -⟩ := Prod.mk.injEq .. ▸ h2
      subst h3
      exact hc
    · exact ih (k + 2) z j h

theorem findGoalZone_postcondition (T : FlowingTerrainObstacle)
    (aw ah : ℝ) (sz : Zone) (gr mr buf : ℝ) (u : ℕ → ℝ) :
    ∀ (fuel k : ℕ) (z : Zone),
      findGoalZone T aw ah sz gr mr buf u fuel k = some z →
      isPositionClear T aw ah z.centerX z.centerY gr mr = true ∧
      min aw ah * (2/10) ≤
        Real.sqrt ((z.centerX - sz.centerX) ^ 2 + (z.centerY - sz.centerY) ^ 2) := by
  intro fuel
  induction fuel with
  | zero => intro k z h; exact absurd h (by simp [findGoalZone])
  | succ n ih =>
    intro k z h
    rw [findGoalZone_succ] at h
    split_ifs at h with hc
    · injection h with h2
      subst h2
      exact ⟨hc.2, hc.1⟩
    · exact ih (k + 2) z h

/-- Claim C5, amended: every (spawn, goal) zone pair returned by the zone
    validator has passed the clearance check (zone within arena bounds and
    five sampled test points collision-free at the marble radius) and the
    separation check (centers at least 20 percent of the smaller arena
    dimension apart); no reachability check is performed. -/
theorem claim5_amended_validator_postcondition (T : FlowingTerrainObstacle)
    (aw ah : ℝ) (u : ℕ → ℝ) (z1 z2 : Zone)
    (h : validateIndivRaceTerrain T aw ah u = some (z1, z2)) :
    isPositionClear T aw ah z1.centerX z1.centerY (MARBLE_RADIUS * 4) MARBLE_RADIUS
        = true ∧
    isPositionClear T aw ah z2.centerX z2.centerY (MARBLE_RADIUS * 3) MARBLE_RADIUS
        = true ∧
    min aw ah * (2/10) ≤
      Real.sqrt ((z2.centerX - z1.centerX) ^ 2 + (z2.centerY - z1.centerY) ^ 2) := by
  simp only [validateIndivRaceTerrain, findAnyValidZones] at h
  rcases hs : findSpawnZone T aw ah (MARBLE_RADIUS * 4) MARBLE_RADIUS
      (max (MARBLE_RADIUS * 4) (MARBLE_RADIUS * 3) + 20) u 500 0 with _ | ⟨sz, j⟩
  · rw [hs] at h
    exact absurd h (by simp)
  · rw [hs] at h
    dsimp only at h
    rcases hg : findGoalZone T aw ah sz (MARBLE_RADIUS * 3) MARBLE_RADIUS
        (max (MARBLE_RADIUS * 4) (MARBLE_RADIUS * 3) + 20) u 500 j with _ | gz
    · rw [hg] at h
      exact absurd h (by simp)
    · rw [hg] at h
      simp only [Option.some.injEq] at h
      obtain ⟨h1, h2⟩ := Prod.mk.injEq .. ▸ h
      subst h1
      subst h2
      obtain ⟨hg1, hg2⟩ := findGoalZone_postcondition T aw ah sz _ _ _ u 500 j gz hg
      exact ⟨findSpawnZone_postcondition T aw ah _ _ _ u 500 0 sz j hs, hg1, hg2⟩

theorem claim5_amended_validator_postcondition_witness :
    validateIndivRaceTerrain T0 400 400 u0 = some (spawnZ0, goalZ0) ∧
    (isPositionClear T0 400 400 spawnZ0.centerX spawnZ0.centerY
        (MARBLE_RADIUS * 4) MARBLE_RADIUS = true ∧
     isPositionClear T0 400 400 goalZ0.centerX goalZ0.centerY
        (MARBLE_RADIUS * 3) MARBLE_RADIUS = true ∧
     min (400:ℝ) 400 * (2/10) ≤
       Real.sqrt ((goalZ0.centerX - spawnZ0.centerX) ^ 2
          + (goalZ0.centerY - spawnZ0.centerY) ^ 2)) :=
  ⟨validate_T0,
   claim5_amended_validator_postcondition T0 400 400 u0 spawnZ0 goalZ0 validate_T0⟩
